import Mathlib

/-!
Verification of the Adaptive Learning Engine of the OpenTA repository:
the spaced repetition scheduler, mastery estimator, behavioral signal
tracker and exam runway planner, shallowly embedded from
backend/adaptive/spaced_repetition.py, behavioral_tracker.py and
exam_runway.py.

Conventions of the embedding:
- Python floats are modelled as rational numbers.
- Timestamps are rational numbers of seconds since an arbitrary epoch;
  datetime.now() becomes an explicit parameter called now.
- Python dicts (which preserve insertion order) are modelled as
  association lists: writing a fresh key appends, writing an existing key
  replaces in place, and lookup finds the first matching key.
- Python exceptions are modelled with Except String.
-/

namespace OpenTA

/-- Number of seconds in a day: a timedelta of d days is d * 86400 seconds. -/
def secondsPerDay : ℚ := 86400

/-- Number of seconds in an hour. -/
def secondsPerHour : ℚ := 3600

/-- Lookup in an association list modelling a Python dict. -/
def alookup {α : Type} (k : String) : List (String × α) → Option α
  | [] => none
  | (k', v) :: rest => if k' = k then some v else alookup k rest

/-- Write a key in an association list modelling a Python dict: replace the
first matching entry in place, or append a fresh entry at the end. -/
def aset {α : Type} (k : String) (v : α) : List (String × α) → List (String × α)
  | [] => [(k, v)]
  | (k', v') :: rest => if k' = k then (k, v) :: rest else (k', v') :: aset k v rest

/-- Apply a function to the value stored at a key, if present; modelling an
in-place mutation of a value already known to be in the dict. -/
def amodify {α : Type} (k : String) (f : α → α) : List (String × α) → List (String × α)
  | [] => []
  | (k', v) :: rest => if k' = k then (k', f v) :: rest else (k', v) :: amodify k f rest

/-- Delete a key from an association list (Python del dict entry). -/
def adel {α : Type} (k : String) : List (String × α) → List (String × α)
  | [] => []
  | (k', v) :: rest => if k' = k then rest else (k', v) :: adel k rest

/-! ## Spaced repetition data model (spaced_repetition.py) -/

/-- Result of a review attempt (class ReviewResult). -/
inductive ReviewResult
  | forgot
  | hard
  | good
  | easy
deriving DecidableEq, Repr

/-- A single item to review (dataclass ReviewCard). -/
structure ReviewCard where
  card_id : String
  topic : String
  subtopic : String
  difficulty : ℚ
  content_source : String
  question_text : String
  correct_answer : String
  distractors : List String
  ease_factor : ℚ := 5/2
  interval_days : ℚ := 1
  repetitions : ℕ := 0
  last_reviewed : Option ℚ := none
  next_review : Option ℚ := none
  total_reviews : ℕ := 0
  correct_count : ℕ := 0
  average_response_time : ℚ := 0
deriving DecidableEq, Repr

/-- Tracks a student mastery of a topic (dataclass StudentMastery). -/
structure StudentMastery where
  student_id : String
  topic : String
  mastery_score : ℚ := 1/2
  confidence : ℚ := 1/10
  attempts : ℕ := 0
  correct : ℕ := 0
  streak : ℕ := 0
  cards : List ReviewCard := []
  last_practiced : Option ℚ := none
  next_recommended_review : Option ℚ := none
deriving DecidableEq, Repr

/-- The engine state: student_id -> topic -> StudentMastery
(class SpacedRepetitionEngine). -/
structure SpacedRepetitionEngine where
  student_mastery : List (String × List (String × StudentMastery)) := []
deriving DecidableEq, Repr

/-- Method get_or_create_mastery: get or create mastery tracking for a
student-topic pair; returns the record and the possibly-extended engine. -/
def get_or_create_mastery (e : SpacedRepetitionEngine) (student_id topic : String) :
    StudentMastery × SpacedRepetitionEngine :=
  let topics := (alookup student_id e.student_mastery).getD []
  match alookup topic topics with
  | some m => (m, ⟨aset student_id topics e.student_mastery⟩)
  | none =>
    let m : StudentMastery := { student_id := student_id, topic := topic }
    (m, ⟨aset student_id (topics ++ [(topic, m)]) e.student_mastery⟩)

/-- Method add_card: add a review card to a student deck; if the card has no
next_review it is initialized for one day out. -/
def add_card (e : SpacedRepetitionEngine) (student_id : String) (card : ReviewCard)
    (now : ℚ) : SpacedRepetitionEngine :=
  let (m, e') := get_or_create_mastery e student_id card.topic
  let card := if card.next_review = none then
    { card with next_review := some (now + secondsPerDay) } else card
  ⟨amodify student_id (amodify card.topic
      (fun _ => { m with cards := m.cards ++ [card] })) e'.student_mastery⟩

/-- Helper of _find_card: first card with the given id in one topic list. -/
def find_card_in (cards : List ReviewCard) (card_id : String) : Option ReviewCard :=
  cards.find? (fun c => c.card_id == card_id)

/-- Helper of _find_card: scan the topics of one student in insertion order. -/
def find_card_topics (topics : List (String × StudentMastery)) (card_id : String) :
    Option ReviewCard :=
  match topics with
  | [] => none
  | (_, m) :: rest =>
    match find_card_in m.cards card_id with
    | some c => some c
    | none => find_card_topics rest card_id

/-- Method _find_card: find a card by id across all topics of a student. -/
def find_card (e : SpacedRepetitionEngine) (student_id card_id : String) :
    Option ReviewCard :=
  match alookup student_id e.student_mastery with
  | none => none
  | some topics => find_card_topics topics card_id

/-- Replace the first card with the given id inside one list of cards,
modelling the in-place mutation of the card object found by _find_card. -/
def replace_card_in (cards : List ReviewCard) (card_id : String) (c' : ReviewCard) :
    List ReviewCard :=
  match cards with
  | [] => []
  | c :: rest =>
    if c.card_id == card_id then c' :: rest else c :: replace_card_in rest card_id c'

/-- Replace the card found by _find_card, in the first topic that holds it. -/
def replace_card_topics (topics : List (String × StudentMastery)) (card_id : String)
    (c' : ReviewCard) : List (String × StudentMastery) :=
  match topics with
  | [] => []
  | (t, m) :: rest =>
    if (find_card_in m.cards card_id).isSome then
      (t, { m with cards := replace_card_in m.cards card_id c' }) :: rest
    else
      (t, m) :: replace_card_topics rest card_id c'

/-- Engine-level in-place replacement of the card found by _find_card. -/
def replace_card (e : SpacedRepetitionEngine) (student_id card_id : String)
    (c' : ReviewCard) : SpacedRepetitionEngine :=
  ⟨amodify student_id (fun topics => replace_card_topics topics card_id c')
    e.student_mastery⟩

/-- The per-card mutations of record_review (lines 109-154 of
spaced_repetition.py): statistics update, SM-2 branch, and scheduling of the
next review. -/
def sm2_card_update (card : ReviewCard) (result : ReviewResult)
    (response_time_seconds now : ℚ) : ReviewCard :=
  let card := { card with
    total_reviews := card.total_reviews + 1
    last_reviewed := some now
    average_response_time :=
      (3/10) * response_time_seconds + (1 - 3/10) * card.average_response_time }
  let card :=
    match result with
    | .forgot =>
      { card with
        repetitions := 0
        interval_days := 1
        ease_factor := max (13/10) (card.ease_factor - 2/10) }
    | _ =>
      let card := { card with correct_count := card.correct_count + 1 }
      let card :=
        match result with
        | .hard => { card with ease_factor := max (13/10) (card.ease_factor - 15/100) }
        | .easy => { card with ease_factor := min (5/2) (card.ease_factor + 1/10) }
        | _ => card
      let card :=
        if card.repetitions = 0 then { card with interval_days := 1 }
        else if card.repetitions = 1 then { card with interval_days := 6 }
        else { card with interval_days := card.interval_days * card.ease_factor }
      { card with repetitions := card.repetitions + 1 }
  { card with next_review := some (now + card.interval_days * secondsPerDay) }

/-- Method _update_mastery_score: Bayesian-inspired mastery update. -/
def update_mastery_score (m : StudentMastery) (now : ℚ) : StudentMastery :=
  if m.attempts = 0 then m
  else
    let success_rate : ℚ := (m.correct : ℚ) / (m.attempts : ℚ)
    let streak_bonus : ℚ := min (2/10) ((m.streak : ℚ) * (2/100))
    let recency_penalty : ℚ :=
      match m.last_practiced with
      | some lp => min (3/10) ((⌊(now - lp) / secondsPerDay⌋ : ℚ) * (1/100))
      | none => 0
    let raw_score := success_rate + streak_bonus - recency_penalty
    { m with
      mastery_score := max 0 (min 1 raw_score)
      confidence := min (9/10) (1/10 + (m.attempts : ℚ) * (5/100)) }

/-- The per-topic mutations of record_review: streak and correct counters,
attempt counter, last_practiced, then the mastery score update. -/
def mastery_after_review (result : ReviewResult) (now : ℚ) (m : StudentMastery) :
    StudentMastery :=
  let m :=
    match result with
    | .forgot => { m with streak := 0 }
    | _ => { m with correct := m.correct + 1, streak := m.streak + 1 }
  let m := { m with attempts := m.attempts + 1, last_practiced := some now }
  update_mastery_score m now

/-- Method record_review: record a review result and update card scheduling
with the SM-2 algorithm; raises (Except.error) when the card is not found. -/
def record_review (e : SpacedRepetitionEngine) (student_id card_id : String)
    (result : ReviewResult) (response_time_seconds now : ℚ) :
    Except String (ReviewCard × SpacedRepetitionEngine) :=
  match find_card e student_id card_id with
  | none => .error ("Card " ++ card_id ++ " not found for student " ++ student_id)
  | some card =>
    let (_, e) := get_or_create_mastery e student_id card.topic
    let card' := sm2_card_update card result response_time_seconds now
    let e := replace_card e student_id card_id card'
    let e : SpacedRepetitionEngine :=
      ⟨amodify student_id (amodify card.topic (mastery_after_review result now))
        e.student_mastery⟩
    .ok (card', e)

/-- One due entry of get_due_cards: a card together with its overdue hours. -/
def due_entry (now : ℚ) (c : ReviewCard) : Option (ℚ × ReviewCard) :=
  match c.next_review with
  | some nr => if nr ≤ now then some ((now - nr) / secondsPerHour, c) else none
  | none => none

/-- The topic loop of get_due_cards; accessing a topic that is not a key of
the student dict raises a KeyError, exactly as the Python subscript does. -/
def collect_due (topics : List String) (topicMap : List (String × StudentMastery))
    (now : ℚ) : Except String (List (ℚ × ReviewCard)) :=
  match topics with
  | [] => .ok []
  | t :: ts =>
    match alookup t topicMap with
    | none => .error ("KeyError: " ++ t)
    | some m =>
      match collect_due ts topicMap now with
      | .error msg => .error msg
      | .ok rest => .ok (m.cards.filterMap (due_entry now) ++ rest)

/-- Method get_due_cards: cards due for review now, most overdue first.
A topic argument equal to the empty string is falsy in Python and therefore
selects all topics. -/
def get_due_cards (e : SpacedRepetitionEngine) (student_id : String)
    (topic : Option String) (limit : ℕ) (now : ℚ) : Except String (List ReviewCard) :=
  match alookup student_id e.student_mastery with
  | none => .ok []
  | some topicMap =>
    let topics : List String :=
      match topic with
      | some t => if t = "" then topicMap.map Prod.fst else [t]
      | none => topicMap.map Prod.fst
    match collect_due topics topicMap now with
    | .error msg => .error msg
    | .ok pairs =>
      let sorted := pairs.mergeSort (fun a b => decide (b.1 ≤ a.1))
      .ok ((sorted.take limit).map Prod.snd)

/-- Method get_new_cards: never-reviewed cards of a topic, easiest first;
calls get_or_create_mastery, so it can extend the mastery store. -/
def get_new_cards (e : SpacedRepetitionEngine) (student_id topic : String)
    (limit : ℕ) : List ReviewCard × SpacedRepetitionEngine :=
  let (m, e') := get_or_create_mastery e student_id topic
  let new_cards := m.cards.filter (fun c => c.total_reviews == 0)
  let sorted := new_cards.mergeSort (fun a b => decide (a.difficulty ≤ b.difficulty))
  (sorted.take limit, e')

/-- Method get_weak_topics: topics with mastery below the threshold and at
least 3 attempts, sorted by lowest mastery first. -/
def get_weak_topics (e : SpacedRepetitionEngine) (student_id : String)
    (threshold : ℚ) : List (String × ℚ × ℚ) :=
  match alookup student_id e.student_mastery with
  | none => []
  | some topicMap =>
    let weak := topicMap.filterMap (fun p =>
      if p.2.mastery_score < threshold ∧ 3 ≤ p.2.attempts then
        some (p.1, p.2.mastery_score, p.2.confidence)
      else none)
    weak.mergeSort (fun a b => decide (a.2.1 ≤ b.2.1))

/-- Convenience lookup of the mastery record of a student-topic pair. -/
def mastery_at (e : SpacedRepetitionEngine) (student_id topic : String) :
    Option StudentMastery :=
  (alookup student_id e.student_mastery).bind (alookup topic)

/-! ## Behavioral signal tracker (behavioral_tracker.py) -/

/-- Types of struggle signals (class StruggleSignal). -/
inductive StruggleSignal
  | multiple_hints
  | long_dwell
  | repeated_errors
  | copy_paste
  | low_confidence
  | rapid_questions
  | off_topic
deriving DecidableEq, Repr

/-- Tracks activity within a single session (dataclass SessionActivity). -/
structure SessionActivity where
  session_id : String
  student_id : String
  topic : String
  start_time : ℚ
  hint_requests : ℕ := 0
  questions_asked : ℕ := 0
  time_on_task_seconds : ℚ := 0
  copy_paste_count : ℕ := 0
  error_repeats : List (String × ℕ) := []
  signals_detected : List StruggleSignal := []
  intervention_offered : Bool := false
  intervention_accepted : Bool := false
deriving DecidableEq, Repr

/-- Long-term behavioral profile (dataclass StudentBehaviorProfile). -/
structure StudentBehaviorProfile where
  student_id : String
  total_sessions : ℕ := 0
  total_hints_used : ℕ := 0
  average_session_length : ℚ := 0
  topics_with_struggles : List (String × ℕ) := []
  recent_signals : List (ℚ × StruggleSignal × String) := []
  hint_preference : ℚ := 1/2
  persistence : ℚ := 1/2
  asks_for_help : ℚ := 1/2
deriving DecidableEq, Repr

/-- State of the tracker (class BehavioralTracker). -/
structure BehavioralTracker where
  active_sessions : List (String × SessionActivity) := []
  student_profiles : List (String × StudentBehaviorProfile) := []
deriving DecidableEq, Repr

/-- Threshold HINT_THRESHOLD. -/
def HINT_THRESHOLD : ℕ := 3

/-- Threshold DWELL_THRESHOLD_MINUTES. -/
def DWELL_THRESHOLD_MINUTES : ℚ := 10

/-- Threshold ERROR_REPEAT_THRESHOLD. -/
def ERROR_REPEAT_THRESHOLD : ℕ := 2

/-- Window RAPID_QUESTION_WINDOW in minutes. -/
def RAPID_QUESTION_WINDOW : ℚ := 5

/-- Count RAPID_QUESTION_COUNT. -/
def RAPID_QUESTION_COUNT : ℕ := 5

/-- The apostrophe character, used inside the phrase tables below. -/
def apos : String := String.singleton (Char.ofNat 39)

/-- Method start_session: create a session and, if needed, the profile. -/
def start_session (tr : BehavioralTracker) (session_id student_id topic : String)
    (now : ℚ) : BehavioralTracker :=
  let session : SessionActivity :=
    { session_id := session_id, student_id := student_id, topic := topic,
      start_time := now }
  let tr := { tr with active_sessions := aset session_id session tr.active_sessions }
  if (alookup student_id tr.student_profiles).isSome then tr
  else
    let fresh : StudentBehaviorProfile := { student_id := student_id }
    { tr with student_profiles := tr.student_profiles ++ [(student_id, fresh)] }

/-- Method _record_signal: append the signal to the recent signal history of
the student profile, keeping only the last 50 entries. In Python a missing
profile would raise a KeyError; this is unreachable through the tracker API
because start_session always creates the profile, and is modelled here as
leaving the profile map unchanged. -/
def record_signal (tr : BehavioralTracker) (session : SessionActivity)
    (signal : StruggleSignal) (now : ℚ) : BehavioralTracker :=
  let upd : StudentBehaviorProfile → StudentBehaviorProfile := fun p =>
    let rs := p.recent_signals ++ [(now, signal, session.topic)]
    { p with recent_signals := (if 50 < rs.length then rs.drop (rs.length - 50) else rs) }
  { tr with student_profiles := amodify session.student_id upd tr.student_profiles }

/-- The shared signal-raising pattern of the log methods: when the trigger
condition holds and the signal is not yet in signals_detected, append it and
record it in the profile. -/
def raise_signal_if (tr : BehavioralTracker) (session_id : String) (cond : Bool)
    (signal : StruggleSignal) (now : ℚ) : BehavioralTracker :=
  match alookup session_id tr.active_sessions with
  | none => tr
  | some s =>
    if cond ∧ signal ∉ s.signals_detected then
      let s := { s with signals_detected := s.signals_detected ++ [signal] }
      record_signal { tr with active_sessions := aset session_id s tr.active_sessions }
        s signal now
    else tr

/-- Method log_hint_request. -/
def log_hint_request (tr : BehavioralTracker) (session_id : String) (now : ℚ) :
    BehavioralTracker :=
  match alookup session_id tr.active_sessions with
  | none => tr
  | some s =>
    let s := { s with hint_requests := s.hint_requests + 1 }
    let tr := { tr with active_sessions := aset session_id s tr.active_sessions }
    raise_signal_if tr session_id (decide (HINT_THRESHOLD ≤ s.hint_requests))
      .multiple_hints now

/-- The phrases scanned for by log_question. -/
def low_confidence_phrases : List String :=
  ["i don" ++ apos ++ "t know", "confused", "no idea", "lost",
   "don" ++ apos ++ "t understand"]

/-- Whether the pattern occurs at the start of the haystack. -/
def chars_start_with (hay pat : List Char) : Bool :=
  match hay, pat with
  | _, [] => true
  | [], _ :: _ => false
  | c :: cs, d :: ds => c = d && chars_start_with cs ds

/-- Whether the pattern occurs anywhere in the haystack (Python in). -/
def chars_contain (hay pat : List Char) : Bool :=
  if chars_start_with hay pat then true
  else
    match hay with
    | [] => false
    | _ :: t => chars_contain t pat

/-- Substring test on strings (Python: pat in hay). -/
def str_contains (hay pat : String) : Bool :=
  chars_contain hay.data pat.data

/-- Method log_question: counts the question, then checks for rapid-fire
questions and low-confidence language. -/
def log_question (tr : BehavioralTracker) (session_id question : String) (now : ℚ) :
    BehavioralTracker :=
  match alookup session_id tr.active_sessions with
  | none => tr
  | some s =>
    let s := { s with questions_asked := s.questions_asked + 1 }
    let tr := { tr with active_sessions := aset session_id s tr.active_sessions }
    let session_duration := (now - s.start_time) / 60
    let tr := raise_signal_if tr session_id
      (decide (session_duration < RAPID_QUESTION_WINDOW) &&
        decide (RAPID_QUESTION_COUNT ≤ s.questions_asked))
      .rapid_questions now
    raise_signal_if tr session_id
      (low_confidence_phrases.any (fun p => str_contains question.toLower p))
      .low_confidence now

/-- Method log_error. -/
def log_error (tr : BehavioralTracker) (session_id error_type : String) (now : ℚ) :
    BehavioralTracker :=
  match alookup session_id tr.active_sessions with
  | none => tr
  | some s =>
    let cnt := ((alookup error_type s.error_repeats).getD 0) + 1
    let s := { s with error_repeats := aset error_type cnt s.error_repeats }
    let tr := { tr with active_sessions := aset session_id s tr.active_sessions }
    raise_signal_if tr session_id (decide (ERROR_REPEAT_THRESHOLD ≤ cnt))
      .repeated_errors now

/-- Method log_copy_paste. -/
def log_copy_paste (tr : BehavioralTracker) (session_id : String) (now : ℚ) :
    BehavioralTracker :=
  match alookup session_id tr.active_sessions with
  | none => tr
  | some s =>
    let s := { s with copy_paste_count := s.copy_paste_count + 1 }
    let tr := { tr with active_sessions := aset session_id s tr.active_sessions }
    raise_signal_if tr session_id (decide (5 ≤ s.copy_paste_count)) .copy_paste now

/-- Method update_time_on_task. -/
def update_time_on_task (tr : BehavioralTracker) (session_id : String) (now : ℚ) :
    BehavioralTracker :=
  match alookup session_id tr.active_sessions with
  | none => tr
  | some s =>
    let s := { s with time_on_task_seconds := now - s.start_time }
    let tr := { tr with active_sessions := aset session_id s tr.active_sessions }
    let minutes_elapsed := s.time_on_task_seconds / 60
    raise_signal_if tr session_id
      (decide (DWELL_THRESHOLD_MINUTES ≤ minutes_elapsed) &&
        (s.questions_asked == 0 || s.hint_requests == 0))
      .long_dwell now

/-- Explanation text of one signal (_explain_signals table). -/
def explain_signal (s : StruggleSignal) : String :=
  match s with
  | .multiple_hints => "You" ++ apos ++ "ve requested several hints"
  | .long_dwell => "You" ++ apos ++ "ve been working on this for a while"
  | .repeated_errors => "You" ++ apos ++ "re encountering the same error repeatedly"
  | .copy_paste => "There" ++ apos ++ "s a lot of trial-and-error happening"
  | .low_confidence => "You mentioned feeling confused"
  | .rapid_questions => "You have several questions coming up quickly"
  | .off_topic => "Some confusion about fundamental concepts"

/-- Method _explain_signals: join the top three signal explanations. The
empty-list case is unreachable (callers pass at least two signals); in Python
it would raise an IndexError and it is given the empty string here. -/
def explain_signals (signals : List StruggleSignal) : String :=
  let parts := (signals.take 3).map explain_signal
  match parts with
  | [p] => p
  | [p, q] => p ++ " and " ++ q
  | ps => String.intercalate ", " ps.dropLast ++ ", and " ++ (ps.getLast?.getD "")

/-- The return value of should_offer_intervention: either the no-offer dict
or the full intervention recommendation dict. -/
inductive InterventionDecision
  | no_offer
  | offer (itype reason : String) (signals : List StruggleSignal)
      (suggested_action : String)
deriving DecidableEq, Repr

/-- Whether the decision is an offer. -/
def InterventionDecision.isOffer : InterventionDecision → Bool
  | .no_offer => false
  | .offer _ _ _ _ => true

/-- Method should_offer_intervention: no offer when the session is unknown,
an intervention was already offered, or fewer than 2 signals were detected;
otherwise build the recommendation and mark the session as offered. -/
def should_offer_intervention (tr : BehavioralTracker) (session_id : String) :
    InterventionDecision × BehavioralTracker :=
  match alookup session_id tr.active_sessions with
  | none => (.no_offer, tr)
  | some s =>
    if s.intervention_offered then (.no_offer, tr)
    else if s.signals_detected.length < 2 then (.no_offer, tr)
    else
      let signals := s.signals_detected
      let intervention := InterventionDecision.offer "concept_check"
        (explain_signals signals) signals
        "Take a quick 2-question concept check to identify gaps"
      let s := { s with intervention_offered := true }
      (intervention, { tr with active_sessions := aset session_id s tr.active_sessions })

/-- Method record_intervention_response. -/
def record_intervention_response (tr : BehavioralTracker) (session_id : String)
    (accepted : Bool) : BehavioralTracker :=
  match alookup session_id tr.active_sessions with
  | none => tr
  | some s =>
    let s := { s with intervention_accepted := accepted }
    { tr with active_sessions := aset session_id s tr.active_sessions }

/-- Method end_session: fold the session into the student profile and discard
it. In Python a missing profile would raise a KeyError; this is unreachable
through the tracker API and is modelled by a default profile. The returned
summary dict is a pure projection of the final state and is not modelled. -/
def end_session (tr : BehavioralTracker) (session_id : String) : BehavioralTracker :=
  match alookup session_id tr.active_sessions with
  | none => tr
  | some session =>
    let profile := (alookup session.student_id tr.student_profiles).getD
      { student_id := session.student_id }
    let profile := { profile with
      total_sessions := profile.total_sessions + 1
      total_hints_used := profile.total_hints_used + session.hint_requests }
    let session_minutes := session.time_on_task_seconds / 60
    let profile := { profile with
      average_session_length :=
        (profile.average_session_length * ((profile.total_sessions : ℚ) - 1) +
          session_minutes) / (profile.total_sessions : ℚ) }
    let profile :=
      if session.signals_detected ≠ [] then
        let cnt := ((alookup session.topic profile.topics_with_struggles).getD 0) +
          session.signals_detected.length
        let tws := aset session.topic cnt profile.topics_with_struggles
        { profile with topics_with_struggles := tws }
      else profile
    let alpha : ℚ := 2/10
    let hints_per_session :=
      (session.hint_requests : ℚ) / (max (session.questions_asked : ℚ) 1)
    let profile := { profile with
      hint_preference :=
        (1 - alpha) * profile.hint_preference + alpha * min hints_per_session 1 }
    let persistence_score := min (session.time_on_task_seconds / 600) 1
    let profile := { profile with
      persistence := (1 - alpha) * profile.persistence + alpha * persistence_score }
    let help_seeking := min ((session.questions_asked : ℚ) / 5) 1
    let profile := { profile with
      asks_for_help := (1 - alpha) * profile.asks_for_help + alpha * help_seeking }
    { active_sessions := adel session_id tr.active_sessions,
      student_profiles := aset session.student_id profile tr.student_profiles }

/-- One externally visible tracker event, for reasoning about arbitrary
sequences of operations. -/
inductive TrackerEvent
  | startSession (session_id student_id topic : String) (now : ℚ)
  | hintRequest (session_id : String) (now : ℚ)
  | question (session_id text : String) (now : ℚ)
  | errorEvent (session_id kind : String) (now : ℚ)
  | copyPaste (session_id : String) (now : ℚ)
  | timeOnTask (session_id : String) (now : ℚ)
  | offerCheck (session_id : String)
  | interventionResponse (session_id : String) (accepted : Bool)
  | sessionEnd (session_id : String)
deriving DecidableEq, Repr

/-- Interpretation of one tracker event as a state transition. -/
def tracker_step (tr : BehavioralTracker) : TrackerEvent → BehavioralTracker
  | .startSession sid st t now => start_session tr sid st t now
  | .hintRequest sid now => log_hint_request tr sid now
  | .question sid text now => log_question tr sid text now
  | .errorEvent sid kind now => log_error tr sid kind now
  | .copyPaste sid now => log_copy_paste tr sid now
  | .timeOnTask sid now => update_time_on_task tr sid now
  | .offerCheck sid => (should_offer_intervention tr sid).2
  | .interventionResponse sid acc => record_intervention_response tr sid acc
  | .sessionEnd sid => end_session tr sid

/-- A sequence of tracker events applied in order. -/
def tracker_run (tr : BehavioralTracker) (evs : List TrackerEvent) :
    BehavioralTracker :=
  evs.foldl tracker_step tr

/-- Whether the event starts a session with the given id. -/
def TrackerEvent.startsFor : TrackerEvent → String → Bool
  | .startSession sid _ _ _, sid' => sid == sid'
  | _, _ => false

/-! ## Exam runway planner (exam_runway.py) -/

/-- A study task (class StudyTask of models.py). -/
structure StudyTask where
  day : String
  focus : String
  duration_hours : ℚ
  resources : Option (List String) := none
deriving DecidableEq, Repr

/-- Target for a single day in the exam runway (dataclass DailyTarget). -/
structure DailyTarget where
  day_number : ℕ
  date : ℚ
  focus_topics : List String
  time_blocks : List StudyTask
  gap_check_items : ℕ
  intensity : String
deriving DecidableEq, Repr

/-- A 7-day exam preparation plan (dataclass ExamRunway). -/
structure ExamRunway where
  exam_type : String
  exam_date : ℚ
  days_until_exam : ℤ
  daily_targets : List DailyTarget
  priority_topics : List String
  total_hours_allocated : ℚ
deriving DecidableEq, Repr

/-- Method _generate_daily_target: the fixed per-day template. The
days_until_exam and exam_type parameters are present in the source signature
but unused by its body. -/
def generate_daily_target (day_number : ℕ) (target_date : ℚ)
    (days_until_exam : ℤ) (hours_available : ℚ) (priority_topics : List String)
    (exam_type : String) : DailyTarget :=
  if day_number = 1 then
    let focus :=
      if priority_topics = [] then ["Review fundamentals"] else priority_topics.take 2
    { day_number := day_number, date := target_date, focus_topics := focus,
      time_blocks := [
        { day := "Morning",
          focus := "Diagnostic review: " ++ String.intercalate ", " focus,
          duration_hours := hours_available * (4/10) },
        { day := "Afternoon", focus := "Practice problems on weak areas",
          duration_hours := hours_available * (4/10) },
        { day := "Evening", focus := "Gap check quiz (5 items)",
          duration_hours := hours_available * (2/10) }],
      gap_check_items := 5, intensity := "medium" }
  else if day_number ≤ 3 then
    let focus :=
      if priority_topics = [] then ["Core concepts"]
      else [priority_topics.getD ((day_number - 2) % priority_topics.length) ""]
    { day_number := day_number, date := target_date, focus_topics := focus,
      time_blocks := [
        { day := "Morning", focus := "Deep dive: " ++ focus.headD "",
          duration_hours := hours_available * (5/10) },
        { day := "Afternoon", focus := "Practice problems and worked examples",
          duration_hours := hours_available * (3/10) },
        { day := "Evening", focus := "Gap check + review mistakes",
          duration_hours := hours_available * (2/10) }],
      gap_check_items := 5, intensity := "high" }
  else if day_number = 4 then
    { day_number := day_number, date := target_date,
      focus_topics := ["Mock exam", "Comprehensive review"],
      time_blocks := [
        { day := "Morning", focus := "20-minute timed mock exam",
          duration_hours := hours_available * (3/10) },
        { day := "Afternoon", focus := "Review mock exam errors in detail",
          duration_hours := hours_available * (5/10) },
        { day := "Evening", focus := "Targeted practice on missed topics",
          duration_hours := hours_available * (2/10) }],
      gap_check_items := 3, intensity := "high" }
  else if day_number ≤ 6 then
    { day_number := day_number, date := target_date,
      focus_topics := ["High-yield topics", "Review challenging problems"],
      time_blocks := [
        { day := "Morning", focus := "Review must-know concepts",
          duration_hours := hours_available * (4/10) },
        { day := "Afternoon", focus := "Practice recent problem set questions",
          duration_hours := hours_available * (4/10) },
        { day := "Evening", focus := "Light gap check",
          duration_hours := hours_available * (2/10) }],
      gap_check_items := 3, intensity := "medium" }
  else
    { day_number := day_number, date := target_date,
      focus_topics := ["Quick review", "Mental preparation"],
      time_blocks := [
        { day := "Morning", focus := "Skim through notes and flashcards",
          duration_hours := hours_available * (4/10) },
        { day := "Afternoon", focus := "One or two easy practice problems",
          duration_hours := hours_available * (2/10) },
        { day := "Evening", focus := "Rest and get good sleep!",
          duration_hours := hours_available * (4/10) }],
      gap_check_items := 0, intensity := "low" }

/-- The default curriculum lists of generate_runway, keyed by exam kind. -/
def default_priority_topics (exam_type : String) : List String :=
  if exam_type = "midterm" then ["C Basics", "Arrays", "Algorithms", "Memory"]
  else ["C Programming", "Data Structures", "Python", "SQL", "Web Dev"]

/-- Method generate_runway: a 7-day exam preparation plan. The days-until
computation mirrors timedelta.days, which floors toward minus infinity. -/
def generate_runway (engine : SpacedRepetitionEngine) (student_id : String)
    (exam_date : ℚ) (exam_type : String) (hours_per_day : ℚ) (now : ℚ) :
    ExamRunway :=
  let days_until : ℤ := ⌊(exam_date - now) / secondsPerDay⌋
  let clamped := 7 < days_until
  let days_until : ℤ := if clamped then 7 else days_until
  let exam_date : ℚ := if clamped then now + 7 * secondsPerDay else exam_date
  let weak_topics := get_weak_topics engine student_id (7/10)
  let priority_topics := (weak_topics.take 5).map (fun x => x.1)
  let priority_topics :=
    if priority_topics = [] then default_priority_topics exam_type
    else priority_topics
  let num_days : ℕ := (min days_until 7).toNat
  let daily_targets := (List.range' 1 num_days).map (fun day =>
    generate_daily_target day (now + (day : ℚ) * secondsPerDay) days_until
      hours_per_day priority_topics exam_type)
  { exam_type := exam_type, exam_date := exam_date, days_until_exam := days_until,
    daily_targets := daily_targets, priority_topics := priority_topics,
    total_hours_allocated := hours_per_day * (daily_targets.length : ℚ) }

/-! ## Association list lemmas -/

theorem alookup_aset {α : Type} (k k' : String) (v : α) (l : List (String × α)) :
    alookup k' (aset k v l) = if k = k' then some v else alookup k' l := by
  induction l with
  | nil => by_cases h : k = k' <;> simp [aset, alookup, h]
  | cons p rest ih =>
    obtain ⟨pk, pv⟩ := p
    by_cases h1 : pk = k <;> by_cases h2 : k = k' <;> by_cases h3 : pk = k' <;>
      simp_all [aset, alookup]

theorem alookup_amodify {α : Type} (k k' : String) (f : α → α) (l : List (String × α)) :
    alookup k' (amodify k f l) = if k = k' then (alookup k l).map f else alookup k' l := by
  induction l with
  | nil => by_cases h : k = k' <;> simp [amodify, alookup, h]
  | cons p rest ih =>
    obtain ⟨pk, pv⟩ := p
    by_cases h1 : pk = k <;> by_cases h2 : k = k' <;> by_cases h3 : pk = k' <;>
      simp_all [amodify, alookup]

theorem alookup_adel_ne {α : Type} (k k' : String) (l : List (String × α)) (h : k ≠ k') :
    alookup k' (adel k l) = alookup k' l := by
  induction l with
  | nil => simp [adel]
  | cons p rest ih =>
    obtain ⟨pk, pv⟩ := p
    by_cases h1 : pk = k <;> by_cases h3 : pk = k' <;> simp_all [adel, alookup]

theorem mem_aset {α : Type} {p : String × α} {k : String} {v : α}
    {l : List (String × α)} (h : p ∈ aset k v l) : p = (k, v) ∨ p ∈ l := by
  induction l with
  | nil => simpa [aset] using h
  | cons q rest ih =>
    obtain ⟨qk, qv⟩ := q
    by_cases h1 : qk = k <;> simp_all [aset] <;> tauto

theorem mem_amodify {α : Type} {p : String × α} {k : String} {f : α → α}
    {l : List (String × α)} (h : p ∈ amodify k f l) :
    p ∈ l ∨ ∃ q ∈ l, p = (q.1, f q.2) := by
  induction l with
  | nil => simp [amodify] at h
  | cons q rest ih =>
    obtain ⟨qk, qv⟩ := q
    by_cases h1 : qk = k <;> simp_all [amodify] <;> tauto

theorem adel_sublist {α : Type} (k : String) (l : List (String × α)) :
    (adel k l).Sublist l := by
  induction l with
  | nil => simp [adel]
  | cons q rest ih =>
    obtain ⟨qk, qv⟩ := q
    by_cases h1 : qk = k
    · simp only [adel, if_pos h1]
      exact List.Sublist.cons _ (List.Sublist.refl rest)
    · simp only [adel, if_neg h1]
      exact List.Sublist.cons₂ _ ih

theorem alookup_mem {α : Type} {k : String} {v : α} {l : List (String × α)}
    (h : alookup k l = some v) : (k, v) ∈ l := by
  induction l with
  | nil => simp [alookup] at h
  | cons q rest ih =>
    obtain ⟨qk, qv⟩ := q
    by_cases h1 : qk = k <;> simp_all [alookup]

theorem alookup_append_some {α : Type} {k : String} {v : α} {l₁ : List (String × α)}
    (l₂ : List (String × α)) (h : alookup k l₁ = some v) :
    alookup k (l₁ ++ l₂) = some v := by
  induction l₁ with
  | nil => simp [alookup] at h
  | cons q rest ih =>
    obtain ⟨qk, qv⟩ := q
    by_cases h1 : qk = k <;> simp_all [alookup]

theorem alookup_append_none {α : Type} {k : String} {l₁ : List (String × α)}
    (l₂ : List (String × α)) (h : alookup k l₁ = none) :
    alookup k (l₁ ++ l₂) = alookup k l₂ := by
  induction l₁ with
  | nil => simp [alookup]
  | cons q rest ih =>
    obtain ⟨qk, qv⟩ := q
    by_cases h1 : qk = k <;> simp_all [alookup]

theorem alookup_none_iff {α : Type} {k : String} {l : List (String × α)} :
    alookup k l = none ↔ k ∉ l.map Prod.fst := by
  induction l with
  | nil => simp [alookup]
  | cons q rest ih =>
    obtain ⟨qk, qv⟩ := q
    by_cases h1 : qk = k <;> simp_all [alookup]
    tauto

theorem keys_aset {α : Type} (k : String) (v : α) (l : List (String × α)) :
    (aset k v l).map Prod.fst =
      if (alookup k l).isSome then l.map Prod.fst else l.map Prod.fst ++ [k] := by
  induction l with
  | nil => simp [aset, alookup]
  | cons q rest ih =>
    obtain ⟨qk, qv⟩ := q
    by_cases h1 : qk = k <;> simp_all [aset, alookup]
    split_ifs <;> simp_all

theorem keys_aset_nodup {α : Type} (k : String) (v : α) {l : List (String × α)}
    (h : (l.map Prod.fst).Nodup) : ((aset k v l).map Prod.fst).Nodup := by
  rw [keys_aset]
  split_ifs with hs
  · exact h
  · rw [List.nodup_append]
    refine ⟨h, List.nodup_singleton k, ?_⟩
    intro a ha hb
    simp at hb
    subst hb
    rw [Option.isSome_iff_exists] at hs
    push_neg at hs
    have := alookup_none_iff.mp (Option.eq_none_iff_forall_not_mem.mpr
      (by intro v' hv'; exact hs v' hv'))
    exact this ha

theorem keys_amodify {α : Type} (k : String) (f : α → α) (l : List (String × α)) :
    (amodify k f l).map Prod.fst = l.map Prod.fst := by
  induction l with
  | nil => simp [amodify]
  | cons q rest ih =>
    obtain ⟨qk, qv⟩ := q
    by_cases h1 : qk = k <;> simp_all [amodify]

theorem alookup_adel_self {α : Type} {k : String} {l : List (String × α)}
    (h : (l.map Prod.fst).Nodup) : alookup k (adel k l) = none := by
  induction l with
  | nil => simp [adel, alookup]
  | cons q rest ih =>
    obtain ⟨qk, qv⟩ := q
    simp only [List.map_cons, List.nodup_cons] at h
    by_cases h1 : qk = k
    · subst h1
      simp only [adel, if_pos rfl]
      exact alookup_none_iff.mpr h.1
    · simp only [adel, if_neg h1, alookup, if_neg h1]
      exact ih h.2

/-! ## SM-2 card update lemmas -/

theorem sm2_ease_factor (c : ReviewCard) (res : ReviewResult) (rt now : ℚ) :
    (sm2_card_update c res rt now).ease_factor =
      match res with
      | .forgot => max (13/10) (c.ease_factor - 2/10)
      | .hard => max (13/10) (c.ease_factor - 15/100)
      | .good => c.ease_factor
      | .easy => min (5/2) (c.ease_factor + 1/10) := by
  cases res <;> simp only [sm2_card_update] <;> split_ifs <;> rfl

theorem sm2_repetitions (c : ReviewCard) (res : ReviewResult) (rt now : ℚ)
    (h : res ≠ .forgot) :
    (sm2_card_update c res rt now).repetitions = c.repetitions + 1 := by
  cases res <;> simp only [sm2_card_update] <;> first
    | exact absurd rfl h
    | split_ifs <;> rfl

theorem sm2_forgot_fields (c : ReviewCard) (rt now : ℚ) :
    (sm2_card_update c .forgot rt now).repetitions = 0 ∧
    (sm2_card_update c .forgot rt now).interval_days = 1 ∧
    (sm2_card_update c .forgot rt now).ease_factor =
      max (13/10) (c.ease_factor - 2/10) := by
  refine ⟨rfl, rfl, rfl⟩

theorem sm2_interval_success (c : ReviewCard) (res : ReviewResult) (rt now : ℚ)
    (h : res ≠ .forgot) :
    (sm2_card_update c res rt now).interval_days =
      if c.repetitions = 0 then 1
      else if c.repetitions = 1 then 6
      else c.interval_days * (sm2_card_update c res rt now).ease_factor := by
  cases res <;> first
    | exact absurd rfl h
    | simp only [sm2_card_update] <;> split_ifs <;> rfl

theorem sm2_next_review (c : ReviewCard) (res : ReviewResult) (rt now : ℚ) :
    (sm2_card_update c res rt now).next_review =
      some (now + (sm2_card_update c res rt now).interval_days * secondsPerDay) := by
  cases res <;> simp only [sm2_card_update] <;> split_ifs <;> rfl

theorem sm2_ease_bounds (c : ReviewCard) (res : ReviewResult) (rt now : ℚ)
    (h1 : 13/10 ≤ c.ease_factor) (h2 : c.ease_factor ≤ 5/2) :
    13/10 ≤ (sm2_card_update c res rt now).ease_factor ∧
      (sm2_card_update c res rt now).ease_factor ≤ 5/2 := by
  rw [sm2_ease_factor]
  cases res
  · exact ⟨le_max_left _ _, max_le (by norm_num) (by linarith)⟩
  · exact ⟨le_max_left _ _, max_le (by norm_num) (by linarith)⟩
  · exact ⟨h1, h2⟩
  · exact ⟨le_min (by norm_num) (by linarith), min_le_left _ _⟩

/-- Unfolding of record_review in the found case. -/
theorem record_review_ok (e : SpacedRepetitionEngine) (sid cid : String)
    (res : ReviewResult) (rt now : ℚ) (c0 : ReviewCard)
    (h : find_card e sid cid = some c0) :
    record_review e sid cid res rt now =
      .ok (sm2_card_update c0 res rt now,
        ⟨amodify sid (amodify c0.topic (mastery_after_review res now))
          (replace_card (get_or_create_mastery e sid c0.topic).2 sid cid
            (sm2_card_update c0 res rt now)).student_mastery⟩) := by
  simp only [record_review, h]

/-- get_or_create_mastery leaves the student present with the topic present. -/
theorem goc_lookup (e : SpacedRepetitionEngine) (sid topic : String) :
    ∃ tl, alookup sid (get_or_create_mastery e sid topic).2.student_mastery = some tl ∧
      (alookup topic tl).isSome := by
  simp only [get_or_create_mastery]
  cases h : alookup topic ((alookup sid e.student_mastery).getD []) with
  | some m =>
    refine ⟨(alookup sid e.student_mastery).getD [], ?_, ?_⟩
    · rw [alookup_aset]
      simp
    · simp [h]
  | none =>
    refine ⟨(alookup sid e.student_mastery).getD [] ++
      [(topic, { student_id := sid, topic := topic })], ?_, ?_⟩
    · rw [alookup_aset]
      simp
    · rw [alookup_append_none _ h]
      simp [alookup]

/-- replace_card_topics preserves which topic keys are present. -/
theorem alookup_replace_card_topics_isSome (tl : List (String × StudentMastery))
    (cid : String) (c' : ReviewCard) (t : String) :
    (alookup t (replace_card_topics tl cid c')).isSome = (alookup t tl).isSome := by
  induction tl with
  | nil => rfl
  | cons p rest ih =>
    obtain ⟨pk, pm⟩ := p
    simp only [replace_card_topics]
    split_ifs with h
    · by_cases ht : pk = t <;> simp [alookup, ht]
    · by_cases ht : pk = t <;> simp [alookup, ht, ih]

/-- After a successful record_review, the mastery record of the card topic is
the stored record passed through mastery_after_review. -/
theorem record_review_mastery_lookup (e : SpacedRepetitionEngine) (sid cid : String)
    (res : ReviewResult) (rt now : ℚ) (c0 c' : ReviewCard)
    (e' : SpacedRepetitionEngine) (hfind : find_card e sid cid = some c0)
    (hok : record_review e sid cid res rt now = .ok (c', e')) :
    ∃ m, mastery_at e' sid c0.topic = some (mastery_after_review res now m) := by
  rw [record_review_ok e sid cid res rt now c0 hfind] at hok
  simp only [Except.ok.injEq, Prod.mk.injEq] at hok
  obtain ⟨-, he⟩ := hok
  subst he
  obtain ⟨tl, htl, hsome⟩ := goc_lookup e sid c0.topic
  have hrep : alookup sid (replace_card (get_or_create_mastery e sid c0.topic).2 sid
      cid (sm2_card_update c0 res rt now)).student_mastery =
      some (replace_card_topics tl cid (sm2_card_update c0 res rt now)) := by
    simp [replace_card, alookup_amodify, htl]
  have hsome2 : (alookup c0.topic
      (replace_card_topics tl cid (sm2_card_update c0 res rt now))).isSome := by
    rw [alookup_replace_card_topics_isSome]
    exact hsome
  obtain ⟨m2, hm2⟩ := Option.isSome_iff_exists.mp hsome2
  refine ⟨m2, ?_⟩
  simp [mastery_at, alookup_amodify, hrep, hm2]

/-- update_mastery_score changes only the mastery score and the confidence. -/
theorem update_mastery_score_frame (m : StudentMastery) (now : ℚ) :
    (update_mastery_score m now).streak = m.streak ∧
    (update_mastery_score m now).attempts = m.attempts ∧
    (update_mastery_score m now).correct = m.correct ∧
    (update_mastery_score m now).last_practiced = m.last_practiced := by
  unfold update_mastery_score
  split_ifs <;> exact ⟨rfl, rfl, rfl, rfl⟩

/-- update_mastery_score does not change the card list. -/
theorem update_mastery_score_cards (m : StudentMastery) (now : ℚ) :
    (update_mastery_score m now).cards = m.cards := by
  unfold update_mastery_score
  split_ifs <;> rfl

/-- mastery_after_review does not change the card list. -/
theorem mastery_after_review_cards (res : ReviewResult) (now : ℚ)
    (m : StudentMastery) : (mastery_after_review res now m).cards = m.cards := by
  unfold mastery_after_review
  cases res <;> rw [update_mastery_score_cards]

/-! ## Concrete fixtures used by witnesses and counterexamples -/

/-- A fresh concrete card, already scheduled one day out. -/
def ex_card : ReviewCard :=
  { card_id := "c1", topic := "t", subtopic := "sub", difficulty := 1/2,
    content_source := "notes.txt", question_text := "q", correct_answer := "a",
    distractors := ["d1"], next_review := some secondsPerDay }

/-- A concrete engine holding ex_card for student s (added at time 0). -/
def ex_engine : SpacedRepetitionEngine := add_card {} "s" ex_card 0

/-- A concrete card with repetitions 4, ease 2.0 and interval 40 days. -/
def forgot_card : ReviewCard :=
  { ex_card with
    card_id := "c2"
    ease_factor := 2
    interval_days := 40
    repetitions := 4 }

/-- A concrete engine holding forgot_card for student s. -/
def forgot_engine : SpacedRepetitionEngine := add_card {} "s" forgot_card 0

/-! ## Claim theorems -/

/-- Claim C1: for every student and existing item, recording a successful
outcome (hard, good or easy) computes the new interval before incrementing
repetitions: if the item has 0 repetitions the interval becomes 1 day, if it
has 1 the interval becomes 6 days, otherwise the previous interval times the
possibly just-updated ease factor; repetitions is then incremented by 1 and
the next review is scheduled at now plus the new interval. -/
theorem record_review_success_interval (e : SpacedRepetitionEngine)
    (sid cid : String) (res : ReviewResult) (rt now : ℚ) (c0 c' : ReviewCard)
    (e' : SpacedRepetitionEngine) (hfind : find_card e sid cid = some c0)
    (hres : res ≠ .forgot)
    (hok : record_review e sid cid res rt now = .ok (c', e')) :
    c'.repetitions = c0.repetitions + 1 ∧
    c'.interval_days =
      (if c0.repetitions = 0 then 1
       else if c0.repetitions = 1 then 6
       else c0.interval_days * c'.ease_factor) ∧
    c'.next_review = some (now + c'.interval_days * secondsPerDay) := by
  rw [record_review_ok e sid cid res rt now c0 hfind] at hok
  simp only [Except.ok.injEq, Prod.mk.injEq] at hok
  obtain ⟨hc, -⟩ := hok
  subst hc
  exact ⟨sm2_repetitions c0 res rt now hres, sm2_interval_success c0 res rt now hres,
    sm2_next_review c0 res rt now⟩

/-- Witness for C1 at a concrete input: the fresh card ex_card reviewed as
good at time 0 gets repetitions 1, interval 1 day and its next review one day
out. -/
theorem record_review_success_interval_witness :
    find_card ex_engine "s" "c1" = some ex_card ∧
    ReviewResult.good ≠ ReviewResult.forgot ∧
    ((sm2_card_update ex_card .good 10 0).repetitions = ex_card.repetitions + 1 ∧
     (sm2_card_update ex_card .good 10 0).interval_days =
       (if ex_card.repetitions = 0 then 1
        else if ex_card.repetitions = 1 then 6
        else ex_card.interval_days * (sm2_card_update ex_card .good 10 0).ease_factor) ∧
     (sm2_card_update ex_card .good 10 0).next_review =
       some (0 + (sm2_card_update ex_card .good 10 0).interval_days * secondsPerDay)) :=
  ⟨rfl, by decide,
    record_review_success_interval ex_engine "s" "c1" .good 10 0 ex_card _ _
      rfl (by decide)
      (record_review_ok ex_engine "s" "c1" .good 10 0 ex_card rfl)⟩

/-- Claim C2 (amended): recording a forgot outcome on an existing item sets
repetitions to 0, intervalDays to 1.0, easeFactor to max(1.3, easeFactor
minus 0.2), and resets the owning topic streak to 0; in particular, on an
item with repetitions 4, ease factor 2.0 and interval 40 days the resulting
ease factor is 1.8 (the source subtracts 0.2, so the value 1.85 stated in
the claim does not occur). -/
theorem record_review_forgot_resets (e : SpacedRepetitionEngine) (sid cid : String)
    (rt now : ℚ) (c0 c' : ReviewCard) (e' : SpacedRepetitionEngine)
    (hfind : find_card e sid cid = some c0)
    (hok : record_review e sid cid .forgot rt now = .ok (c', e')) :
    c'.repetitions = 0 ∧ c'.interval_days = 1 ∧
    c'.ease_factor = max (13/10) (c0.ease_factor - 2/10) ∧
    ∃ m', mastery_at e' sid c0.topic = some m' ∧ m'.streak = 0 := by
  obtain ⟨m, hm⟩ :=
    record_review_mastery_lookup e sid cid .forgot rt now c0 c' e' hfind hok
  rw [record_review_ok e sid cid .forgot rt now c0 hfind] at hok
  simp only [Except.ok.injEq, Prod.mk.injEq] at hok
  obtain ⟨hc, -⟩ := hok
  subst hc
  obtain ⟨h1, h2, h3⟩ := sm2_forgot_fields c0 rt now
  refine ⟨h1, h2, h3, mastery_after_review .forgot now m, hm, ?_⟩
  show (mastery_after_review .forgot now m).streak = 0
  unfold mastery_after_review
  rw [(update_mastery_score_frame _ now).1]

/-- Witness for C2 at a concrete input: forgot on the card with repetitions
4, ease 2.0, interval 40 gives repetitions 0, interval 1, ease 1.8 and a
topic streak of 0. -/
theorem record_review_forgot_resets_witness :
    ∃ c' e', record_review forgot_engine "s" "c2" .forgot 10 0 = .ok (c', e') ∧
      c'.repetitions = 0 ∧ c'.interval_days = 1 ∧
      c'.ease_factor = max (13/10) (forgot_card.ease_factor - 2/10) ∧
      ∃ m', mastery_at e' "s" forgot_card.topic = some m' ∧ m'.streak = 0 :=
  ⟨_, _, record_review_ok forgot_engine "s" "c2" .forgot 10 0 forgot_card rfl,
    record_review_forgot_resets forgot_engine "s" "c2" 10 0 forgot_card _ _ rfl
      (record_review_ok forgot_engine "s" "c2" .forgot 10 0 forgot_card rfl)⟩

/-- Counterexample to claim C2 as stated: recording forgot on an item with
repetitions 4, ease factor 2.0 and interval 40 days gives repetitions 0,
interval 1 and ease factor 1.8, and 1.8 is not the claimed 1.85. -/
theorem record_review_forgot_ease_counterexample :
    (record_review forgot_engine "s" "c2" .forgot 10 0).toOption.map
      (fun p => (p.1.repetitions, p.1.interval_days, p.1.ease_factor)) =
      some (0, 1, 9/5) ∧ ((9 : ℚ)/5 ≠ 37/20) := by
  constructor
  · rw [record_review_ok forgot_engine "s" "c2" .forgot 10 0 forgot_card rfl]
    have h1 := (sm2_forgot_fields forgot_card 10 0).1
    have h2 := (sm2_forgot_fields forgot_card 10 0).2.1
    have h3 : (sm2_card_update forgot_card .forgot 10 0).ease_factor = 9/5 := by
      rw [(sm2_forgot_fields forgot_card 10 0).2.2]
      have hef : forgot_card.ease_factor = 2 := rfl
      rw [hef, max_eq_right (by norm_num)]
      norm_num
    simp [Except.toOption, h1, h2, h3]
  · norm_num

/-- Every pair produced by due_entry carries a due next_review time and its
overdue-hours key. -/
theorem due_entry_spec {now : ℚ} {p : ℚ × ReviewCard} {c : ReviewCard}
    (h : due_entry now c = some p) :
    ∃ nr, p.2.next_review = some nr ∧ nr ≤ now ∧
      p.1 = (now - nr) / secondsPerHour := by
  unfold due_entry at h
  split at h
  next nr hnr =>
    split at h
    next hle =>
      injection h with h
      subst h
      exact ⟨nr, hnr, hle, rfl⟩
    next hle => exact absurd h (by simp)
  next hnr => exact absurd h (by simp)

/-- Every pair collected by the topic loop of get_due_cards is due. -/
theorem collect_due_spec {topics : List String}
    {topicMap : List (String × StudentMastery)} {now : ℚ}
    {pairs : List (ℚ × ReviewCard)}
    (h : collect_due topics topicMap now = .ok pairs) :
    ∀ p ∈ pairs, ∃ nr, p.2.next_review = some nr ∧ nr ≤ now ∧
      p.1 = (now - nr) / secondsPerHour := by
  induction topics generalizing pairs with
  | nil =>
    simp only [collect_due, Except.ok.injEq] at h
    subst h
    simp
  | cons t ts ih =>
    unfold collect_due at h
    cases hl : alookup t topicMap with
    | none => rw [hl] at h; exact absurd h (by simp)
    | some m =>
      rw [hl] at h
      cases hr : collect_due ts topicMap now with
      | error msg => rw [hr] at h; exact absurd h (by simp)
      | ok rest =>
        rw [hr] at h
        simp only [Except.ok.injEq] at h
        subst h
        intro p hp
        rcases List.mem_append.mp hp with hp | hp
        · obtain ⟨c, _, hde⟩ := List.mem_filterMap.mp hp
          exact due_entry_spec hde
        · exact ih hr p hp

/-- Core of the getDueItems property: sorting the due pairs by descending
overdue key and truncating yields a bounded, due, descending-overdue list. -/
theorem due_sorted_core (pairs : List (ℚ × ReviewCard)) (limit : ℕ) (now : ℚ)
    (hinv : ∀ p ∈ pairs, ∃ nr, p.2.next_review = some nr ∧ nr ≤ now ∧
      p.1 = (now - nr) / secondsPerHour) :
    (((pairs.mergeSort (fun a b => decide (b.1 ≤ a.1))).take limit).map
        Prod.snd).length ≤ limit ∧
    (∀ c ∈ ((pairs.mergeSort (fun a b => decide (b.1 ≤ a.1))).take limit).map
        Prod.snd, ∃ nr, c.next_review = some nr ∧ nr ≤ now) ∧
    (((pairs.mergeSort (fun a b => decide (b.1 ≤ a.1))).take limit).map
        Prod.snd).Pairwise (fun c1 c2 => ∀ nr1 nr2, c1.next_review = some nr1 →
      c2.next_review = some nr2 → now - nr2 ≤ now - nr1) := by
  set le : (ℚ × ReviewCard) → (ℚ × ReviewCard) → Bool :=
    fun a b => decide (b.1 ≤ a.1) with hle
  have hsorted : (pairs.mergeSort le).Pairwise (fun a b => le a b = true) := by
    apply List.sorted_mergeSort
    · intro a b c hab hbc
      simp only [hle, decide_eq_true_eq] at hab hbc ⊢
      exact le_trans hbc hab
    · intro a b
      simp only [hle]
      rcases le_total a.1 b.1 with hab | hab <;> simp [hab]
  have hmemsorted : ∀ p ∈ pairs.mergeSort le, ∃ nr,
      p.2.next_review = some nr ∧ nr ≤ now ∧
      p.1 = (now - nr) / secondsPerHour := by
    intro p hp
    exact hinv p (List.mem_mergeSort.mp hp)
  have htakesub : ((pairs.mergeSort le).take limit).Sublist (pairs.mergeSort le) :=
    List.take_sublist limit _
  refine ⟨?_, ?_, ?_⟩
  · rw [List.length_map, List.length_take]
    exact min_le_left _ _
  · intro c hcmem
    obtain ⟨p, hp, hpc⟩ := List.mem_map.mp hcmem
    obtain ⟨nr, h1, h2, -⟩ := hmemsorted p (htakesub.subset hp)
    exact ⟨nr, hpc ▸ h1, h2⟩
  · rw [List.pairwise_map]
    have hpw : ((pairs.mergeSort le).take limit).Pairwise
        (fun a b => le a b = true) :=
      hsorted.sublist htakesub
    refine hpw.imp_of_mem ?_
    intro a b ha hb hab
    intro nr1 nr2 hnr1 hnr2
    obtain ⟨m1, hm1, -, hk1⟩ := hmemsorted a (htakesub.subset ha)
    obtain ⟨m2, hm2, -, hk2⟩ := hmemsorted b (htakesub.subset hb)
    rw [hm1] at hnr1
    rw [hm2] at hnr2
    injection hnr1 with hnr1
    injection hnr2 with hnr2
    subst hnr1
    subst hnr2
    simp only [hle, decide_eq_true_eq] at hab
    rw [hk1, hk2] at hab
    rw [div_le_div_iff (by norm_num [secondsPerHour])
      (by norm_num [secondsPerHour])] at hab
    have hsp : secondsPerHour = 3600 := rfl
    rw [hsp] at hab
    linarith

/-- Claim C5: for every student, optional topic and limit, whenever
getDueItems returns a list, that list has at most limit items, every item in
it has a next review time at or before now, and the list is ordered by
descending overdue duration (most overdue first). -/
theorem get_due_cards_spec (e : SpacedRepetitionEngine) (sid : String)
    (topic : Option String) (limit : ℕ) (now : ℚ) (l : List ReviewCard)
    (h : get_due_cards e sid topic limit now = .ok l) :
    l.length ≤ limit ∧
    (∀ c ∈ l, ∃ nr, c.next_review = some nr ∧ nr ≤ now) ∧
    l.Pairwise (fun c1 c2 => ∀ nr1 nr2, c1.next_review = some nr1 →
      c2.next_review = some nr2 → now - nr2 ≤ now - nr1) := by
  unfold get_due_cards at h
  split at h
  · simp only [Except.ok.injEq] at h
    subst h
    simp
  · dsimp only [] at h
    split at h
    · exact absurd h (by simp)
    next pairs hc =>
      simp only [Except.ok.injEq] at h
      subst h
      exact due_sorted_core pairs limit now (collect_due_spec hc)

/-- A due card, 100 seconds past epoch. -/
def due_card1 : ReviewCard := { ex_card with card_id := "b", next_review := some 100 }

/-- A more overdue card, 50 seconds past epoch. -/
def due_card2 : ReviewCard := { ex_card with card_id := "c", next_review := some 50 }

/-- A card whose review is far in the future. -/
def future_card : ReviewCard :=
  { ex_card with card_id := "d", next_review := some (10 * secondsPerDay) }

/-- An engine with two due cards and one future card for student s. -/
def due_engine : SpacedRepetitionEngine :=
  add_card (add_card (add_card {} "s" due_card1 0) "s" due_card2 0) "s" future_card 0

/-- Witness for C5 at a concrete input: at time 200 the engine returns a due,
bounded, descending-overdue list. -/
theorem get_due_cards_spec_witness :
    ∃ l, get_due_cards due_engine "s" none 5 200 = .ok l ∧
      l.length ≤ 5 ∧ (∀ c ∈ l, ∃ nr, c.next_review = some nr ∧ nr ≤ 200) ∧
      l.Pairwise (fun c1 c2 => ∀ nr1 nr2, c1.next_review = some nr1 →
        c2.next_review = some nr2 → 200 - nr2 ≤ 200 - nr1) :=
  ⟨_, rfl, get_due_cards_spec due_engine "s" none 5 200 _ rfl⟩

/-- Claim C6 (amended): recordOutcome raises a NotFound error exactly when
the given itemId does not exist for the given studentId, and its error case
produces no modified state; however it is not the only raising operation of
the engine: getDueItems raises a KeyError when called with an explicit
nonempty topic that is not tracked for an existing student. -/
theorem record_review_notfound_not_only_raise :
    (∀ (e : SpacedRepetitionEngine) (sid cid : String) (res : ReviewResult)
      (rt now : ℚ),
      ((∃ msg, record_review e sid cid res rt now = .error msg) ↔
        find_card e sid cid = none)) ∧
    (∀ (e : SpacedRepetitionEngine) (sid t : String) (lim : ℕ) (now : ℚ)
      (topicMap : List (String × StudentMastery)),
      alookup sid e.student_mastery = some topicMap → t ≠ "" →
      alookup t topicMap = none →
      get_due_cards e sid (some t) lim now = .error ("KeyError: " ++ t)) := by
  constructor
  · intro e sid cid res rt now
    constructor
    · rintro ⟨msg, hmsg⟩
      cases hf : find_card e sid cid with
      | none => rfl
      | some c0 =>
        rw [record_review_ok e sid cid res rt now c0 hf] at hmsg
        exact absurd hmsg (by simp)
    · intro hf
      refine ⟨"Card " ++ cid ++ " not found for student " ++ sid, ?_⟩
      simp [record_review, hf]
  · intro e sid t lim now topicMap hsid ht htm
    unfold get_due_cards
    rw [hsid]
    dsimp only []
    rw [if_neg ht]
    unfold collect_due
    rw [htm]

/-- Counterexample to claim C6 as stated: getDueItems, not recordOutcome,
raises on the concrete engine holding topic t for student s when asked for
the untracked topic zzz, so recordOutcome is not the only raising operation. -/
theorem get_due_cards_raises_counterexample :
    get_due_cards ex_engine "s" (some "zzz") 5 0 = .error ("KeyError: " ++ "zzz") :=
  rfl

/-- Witness for C6 at concrete inputs: an unknown card id makes recordOutcome
raise, and an untracked topic makes getDueItems raise. -/
theorem record_review_notfound_not_only_raise_witness :
    ((∃ msg, record_review ex_engine "s" "nope" .good 1 0 = .error msg) ↔
      find_card ex_engine "s" "nope" = none) ∧
    get_due_cards ex_engine "s" (some "zzz") 5 0 = .error ("KeyError: " ++ "zzz") :=
  ⟨record_review_notfound_not_only_raise.1 ex_engine "s" "nope" .good 1 0,
   record_review_notfound_not_only_raise.2 ex_engine "s" "zzz" 5 0 _ rfl
     (by decide) rfl⟩

/-- Engine lookup through an aset on the same student key. -/
theorem mastery_at_aset_same (L : List (String × List (String × StudentMastery)))
    (sid t : String) (X : List (String × StudentMastery)) :
    mastery_at ⟨aset sid X L⟩ sid t = alookup t X := by
  rw [mastery_at]
  show (alookup sid (aset sid X L)).bind (alookup t) = alookup t X
  rw [alookup_aset, if_pos rfl]
  rfl

/-- Engine lookup through an aset on a different student key. -/
theorem mastery_at_aset_other (L : List (String × List (String × StudentMastery)))
    (sid sid' t' : String) (X : List (String × StudentMastery))
    (h : sid ≠ sid') :
    mastery_at ⟨aset sid X L⟩ sid' t' = mastery_at ⟨L⟩ sid' t' := by
  rw [mastery_at, mastery_at]
  show (alookup sid' (aset sid X L)).bind (alookup t') = _
  rw [alookup_aset, if_neg h]

/-- Claim C10: for every studentId and any topic not yet tracked for that
student, calling getNewItems mutates the mastery store as a side effect: it
creates a fresh TopicMastery record for that pair with default mastery score
0.5, confidence 0.1 and no cards, returns an empty list, and leaves the
records of all other student-topic pairs unchanged. -/
theorem get_new_cards_side_effect (e : SpacedRepetitionEngine)
    (sid topic : String) (lim : ℕ) (h : mastery_at e sid topic = none) :
    (get_new_cards e sid topic lim).1 = [] ∧
    mastery_at (get_new_cards e sid topic lim).2 sid topic =
      some { student_id := sid, topic := topic } ∧
    ({ student_id := sid, topic := topic } : StudentMastery).mastery_score = 1/2 ∧
    ({ student_id := sid, topic := topic } : StudentMastery).confidence = 1/10 ∧
    ({ student_id := sid, topic := topic } : StudentMastery).cards = [] ∧
    (∀ sid' t', ¬(sid' = sid ∧ t' = topic) →
      mastery_at (get_new_cards e sid topic lim).2 sid' t' =
        mastery_at e sid' t') := by
  have hnone : alookup topic ((alookup sid e.student_mastery).getD []) = none := by
    unfold mastery_at at h
    cases hsid : alookup sid e.student_mastery with
    | none => simp [alookup]
    | some tm =>
      rw [hsid] at h
      simpa using h
  have hgoc : get_or_create_mastery e sid topic =
      ({ student_id := sid, topic := topic },
       ⟨aset sid ((alookup sid e.student_mastery).getD [] ++
         [(topic, { student_id := sid, topic := topic })]) e.student_mastery⟩) := by
    simp only [get_or_create_mastery, hnone]
  have hsplit : get_new_cards e sid topic lim =
      ([],
       ⟨aset sid ((alookup sid e.student_mastery).getD [] ++
         [(topic, { student_id := sid, topic := topic })]) e.student_mastery⟩) := by
    simp only [get_new_cards, hgoc]
    simp
  rw [hsplit]
  refine ⟨rfl, ?_, rfl, rfl, rfl, ?_⟩
  · rw [mastery_at_aset_same]
    rw [alookup_append_none _ hnone]
    simp [alookup]
  · intro sid' t' hne
    by_cases hs : sid' = sid
    · subst hs
      have ht : ¬ topic = t' := fun hh => hne ⟨rfl, hh.symm⟩
      rw [mastery_at_aset_same]
      unfold mastery_at
      cases hsid : alookup sid' e.student_mastery with
      | none =>
        simp only [hsid, Option.getD_none, List.nil_append, Option.bind_none]
        simp [alookup, ht]
      | some tm =>
        simp only [hsid, Option.getD_some, Option.bind_some]
        cases htm : alookup t' tm with
        | none =>
          rw [alookup_append_none _ htm]
          simp only [alookup, if_neg ht]
          exact htm.symm
        | some v =>
          rw [alookup_append_some _ htm]
          exact htm.symm
    · rw [mastery_at_aset_other _ _ _ _ _ (fun hh => hs hh.symm)]

/-- Witness for C10 at a concrete input: student s2 and topic nt are not
tracked in ex_engine, and getNewItems creates the default record for them
while returning the empty list and changing nothing else. -/
theorem get_new_cards_side_effect_witness :
    mastery_at ex_engine "s2" "nt" = none ∧
    ((get_new_cards ex_engine "s2" "nt" 3).1 = [] ∧
     mastery_at (get_new_cards ex_engine "s2" "nt" 3).2 "s2" "nt" =
       some { student_id := "s2", topic := "nt" } ∧
     ({ student_id := "s2", topic := "nt" } : StudentMastery).mastery_score = 1/2 ∧
     ({ student_id := "s2", topic := "nt" } : StudentMastery).confidence = 1/10 ∧
     ({ student_id := "s2", topic := "nt" } : StudentMastery).cards = [] ∧
     (∀ sid' t', ¬(sid' = "s2" ∧ t' = "nt") →
       mastery_at (get_new_cards ex_engine "s2" "nt" 3).2 sid' t' =
         mastery_at ex_engine sid' t')) :=
  ⟨rfl, get_new_cards_side_effect ex_engine "s2" "nt" 3 rfl⟩

/-- Every daily target keeps its day number. -/
theorem generate_daily_target_day_number (d : ℕ) (td : ℚ) (du : ℤ) (hrs : ℚ)
    (pt : List String) (et : String) :
    (generate_daily_target d td du hrs pt et).day_number = d := by
  unfold generate_daily_target
  split_ifs <;> rfl

/-- Day 7 of the runway template has low intensity and no gap check items. -/
theorem generate_daily_target_seven (td : ℚ) (du : ℤ) (hrs : ℚ)
    (pt : List String) (et : String) :
    (generate_daily_target 7 td du hrs pt et).intensity = "low" ∧
    (generate_daily_target 7 td du hrs pt et).gap_check_items = 0 := by
  unfold generate_daily_target
  norm_num

/-- Claim C9 (amended): for every student, hoursPerDay and exam kind,
generateRunway called with an exam date more than 7 days in the future
produces exactly 7 DailyTargets whose day numbers are 1 through 7 in order,
with day 7 tagged with the low intensity (the source assigns the string low,
not rest, to the final rest day) and a gap check item count of 0. -/
theorem generate_runway_seven_targets (engine : SpacedRepetitionEngine)
    (sid : String) (exam_date hours now : ℚ) (ek : String)
    (h : 7 < ⌊(exam_date - now) / secondsPerDay⌋) :
    (generate_runway engine sid exam_date ek hours now).daily_targets.length = 7 ∧
    (generate_runway engine sid exam_date ek hours now).daily_targets.map
      DailyTarget.day_number = [1, 2, 3, 4, 5, 6, 7] ∧
    (∀ t ∈ (generate_runway engine sid exam_date ek hours now).daily_targets,
      t.day_number = 7 → t.intensity = "low" ∧ t.gap_check_items = 0) := by
  have h7 : ((min (7:ℤ) 7).toNat) = 7 := rfl
  have hr : List.range' 1 7 = [1, 2, 3, 4, 5, 6, 7] := rfl
  simp only [generate_runway, if_pos h, h7, hr]
  refine ⟨by simp, ?_, ?_⟩
  · simp [generate_daily_target_day_number]
  · intro t htmem ht7
    simp only [List.mem_map] at htmem
    obtain ⟨d, hd, rfl⟩ := htmem
    rw [generate_daily_target_day_number] at ht7
    subst ht7
    simp only [List.mem_cons] at hd
    rcases hd with hd | hd | hd | hd | hd | hd | hd | hd
    · exact absurd hd (by norm_num)
    · exact absurd hd (by norm_num)
    · exact absurd hd (by norm_num)
    · exact absurd hd (by norm_num)
    · exact absurd hd (by norm_num)
    · exact absurd hd (by norm_num)
    · exact generate_daily_target_seven _ _ _ _ _
    · simp at hd

/-- A concrete runway for an exam 10 days out, generated at time 0 on an
empty engine. -/
def runway_ex : ExamRunway :=
  generate_runway {} "s" (10 * secondsPerDay) "midterm" 3 0

/-- Counterexample to claim C9 as stated: with the exam 10 days away the
runway has 7 targets with day numbers 1 through 7, but day 7 carries the
intensity low, not the claimed rest. -/
theorem runway_day7_not_rest_counterexample :
    runway_ex.daily_targets.length = 7 ∧
    runway_ex.daily_targets.map DailyTarget.day_number = [1, 2, 3, 4, 5, 6, 7] ∧
    (runway_ex.daily_targets.getLast?).map DailyTarget.intensity = some "low" ∧
    (some "low" : Option String) ≠ some "rest" := by
  have h : (7:ℤ) < ⌊((10 * secondsPerDay : ℚ) - 0) / secondsPerDay⌋ := by
    norm_num [secondsPerDay]
  have h7 : ((min (7:ℤ) 7).toNat) = 7 := rfl
  have hr : List.range' 1 7 = [1, 2, 3, 4, 5, 6, 7] := rfl
  have hweak : get_weak_topics ({} : SpacedRepetitionEngine) "s" (7/10) = [] := rfl
  simp only [runway_ex, generate_runway, hweak, if_pos h, h7, hr]
  refine ⟨by simp, by simp [generate_daily_target_day_number], ?_, by decide⟩
  simp only [List.map_cons, List.map_nil, List.getLast?_cons, List.getLast?_nil]
  simp [generate_daily_target_seven]

/-- Witness for C9 at a concrete input: the empty engine with the exam 10
days out satisfies the amended conclusion. -/
theorem generate_runway_seven_targets_witness :
    7 < ⌊(10 * secondsPerDay - 0) / secondsPerDay⌋ ∧
    ((generate_runway {} "s" (10 * secondsPerDay) "midterm" 3 0).daily_targets.length
        = 7 ∧
      (generate_runway {} "s" (10 * secondsPerDay) "midterm" 3 0).daily_targets.map
        DailyTarget.day_number = [1, 2, 3, 4, 5, 6, 7] ∧
      (∀ t ∈ (generate_runway {} "s" (10 * secondsPerDay) "midterm" 3
          0).daily_targets, t.day_number = 7 →
        t.intensity = "low" ∧ t.gap_check_items = 0)) :=
  ⟨by norm_num [secondsPerDay],
   generate_runway_seven_targets {} "s" (10 * secondsPerDay) 3 0 "midterm"
     (by norm_num [secondsPerDay])⟩

/-! ## Sequences of recorded outcomes -/

/-- One recorded outcome: who reviewed which card, how, and when. -/
structure ReviewEvent where
  student_id : String
  card_id : String
  result : ReviewResult
  response_time : ℚ
  now : ℚ
deriving DecidableEq, Repr

/-- One engine transition: a raised NotFound leaves the state unchanged. -/
def review_step (e : SpacedRepetitionEngine) (ev : ReviewEvent) :
    SpacedRepetitionEngine :=
  match record_review e ev.student_id ev.card_id ev.result ev.response_time
      ev.now with
  | .ok (_, e') => e'
  | .error _ => e

/-- A sequence of recorded outcomes applied in order. -/
def run_reviews (e : SpacedRepetitionEngine) (evs : List ReviewEvent) :
    SpacedRepetitionEngine :=
  evs.foldl review_step e

/-- All cards of an engine, across all students and topics. -/
def engine_cards (e : SpacedRepetitionEngine) : List ReviewCard :=
  e.student_mastery.bind (fun p => p.2.bind (fun q => q.2.cards))

/-- All mastery records of an engine. -/
def engine_masteries (e : SpacedRepetitionEngine) : List StudentMastery :=
  e.student_mastery.bind (fun p => p.2.map Prod.snd)

/-- Every card ease factor lies in the interval from 1.3 to 2.5. -/
def ease_in_range (e : SpacedRepetitionEngine) : Prop :=
  ∀ c ∈ engine_cards e, 13/10 ≤ c.ease_factor ∧ c.ease_factor ≤ 5/2

/-- Every mastery score and confidence lies in the unit interval. -/
def mastery_in_range (e : SpacedRepetitionEngine) : Prop :=
  ∀ m ∈ engine_masteries e, 0 ≤ m.mastery_score ∧ m.mastery_score ≤ 1 ∧
    0 ≤ m.confidence ∧ m.confidence ≤ 1

/-- A card found by _find_card is one of the engine cards. -/
theorem find_card_mem {e : SpacedRepetitionEngine} {sid cid : String}
    {c0 : ReviewCard} (h : find_card e sid cid = some c0) :
    c0 ∈ engine_cards e := by
  unfold find_card at h
  cases hsid : alookup sid e.student_mastery with
  | none => rw [hsid] at h; exact absurd h (by simp)
  | some tl =>
    rw [hsid] at h
    have hmem := alookup_mem hsid
    unfold engine_cards
    rw [List.mem_bind]
    refine ⟨(sid, tl), hmem, ?_⟩
    rw [List.mem_bind]
    clear hmem hsid
    induction tl with
    | nil => simp [find_card_topics] at h
    | cons q rest ih =>
      obtain ⟨qt, qm⟩ := q
      unfold find_card_topics at h
      cases hf : find_card_in qm.cards cid with
      | some c =>
        rw [hf] at h
        injection h with h
        subst h
        exact ⟨(qt, qm), List.mem_cons_self _ _,
          List.mem_of_find?_eq_some hf⟩
      | none =>
        rw [hf] at h
        obtain ⟨q', hq', hc⟩ := ih h
        exact ⟨q', List.mem_cons_of_mem _ hq', hc⟩

/-- Cards after replace_card_in are the new card or old cards. -/
theorem replace_card_in_mem {cards : List ReviewCard} {cid : String}
    {c' c : ReviewCard} (h : c ∈ replace_card_in cards cid c') :
    c = c' ∨ c ∈ cards := by
  induction cards with
  | nil => simp [replace_card_in] at h
  | cons d rest ih =>
    unfold replace_card_in at h
    by_cases hd : (d.card_id == cid) = true
    · rw [if_pos hd] at h
      rcases List.mem_cons.mp h with h | h
      · exact Or.inl h
      · exact Or.inr (List.mem_cons_of_mem _ h)
    · rw [if_neg hd] at h
      rcases List.mem_cons.mp h with h | h
      · exact Or.inr (h ▸ List.mem_cons_self _ _)
      · rcases ih h with h | h
        · exact Or.inl h
        · exact Or.inr (List.mem_cons_of_mem _ h)

/-- Cards after replace_card_topics are the new card or old cards. -/
theorem replace_card_topics_cards {tl : List (String × StudentMastery)}
    {cid : String} {c' : ReviewCard} :
    ∀ p ∈ replace_card_topics tl cid c', ∀ c ∈ p.2.cards,
      c = c' ∨ ∃ q ∈ tl, c ∈ q.2.cards := by
  induction tl with
  | nil => simp [replace_card_topics]
  | cons q0 rest ih =>
    obtain ⟨t0, m0⟩ := q0
    intro p hp c hc
    unfold replace_card_topics at hp
    by_cases hfound : (find_card_in m0.cards cid).isSome
    · rw [if_pos hfound] at hp
      rcases List.mem_cons.mp hp with hp | hp
      · subst hp
        rcases replace_card_in_mem hc with h | h
        · exact Or.inl h
        · exact Or.inr ⟨(t0, m0), List.mem_cons_self _ _, h⟩
      · exact Or.inr ⟨p, List.mem_cons_of_mem _ hp, hc⟩
    · rw [if_neg hfound] at hp
      rcases List.mem_cons.mp hp with hp | hp
      · subst hp
        exact Or.inr ⟨(t0, m0), List.mem_cons_self _ _, hc⟩
      · rcases ih p hp c hc with h | ⟨q, hq, hcq⟩
        · exact Or.inl h
        · exact Or.inr ⟨q, List.mem_cons_of_mem _ hq, hcq⟩

/-- Every card present after get_or_create_mastery was present before. -/
theorem engine_cards_goc {e : SpacedRepetitionEngine} {sid t : String}
    {c : ReviewCard}
    (hc : c ∈ engine_cards (get_or_create_mastery e sid t).2) :
    c ∈ engine_cards e := by
  unfold get_or_create_mastery at hc
  dsimp only [] at hc
  cases halt : alookup t ((alookup sid e.student_mastery).getD []) with
  | some m =>
    rw [halt] at hc
    unfold engine_cards at hc ⊢
    rw [List.mem_bind] at hc ⊢
    obtain ⟨p, hp, hcards⟩ := hc
    rcases mem_aset hp with hp | hp
    · subst hp
      cases hsid : alookup sid e.student_mastery with
      | none =>
        rw [hsid] at hcards
        simp at hcards
      | some tl =>
        rw [hsid] at hcards
        exact ⟨(sid, tl), alookup_mem hsid, hcards⟩
    · exact ⟨p, hp, hcards⟩
  | none =>
    rw [halt] at hc
    unfold engine_cards at hc ⊢
    rw [List.mem_bind] at hc ⊢
    obtain ⟨p, hp, hcards⟩ := hc
    rcases mem_aset hp with hp | hp
    · subst hp
      rw [List.mem_bind] at hcards
      obtain ⟨q, hq, hcq⟩ := hcards
      rcases List.mem_append.mp hq with hq | hq
      · cases hsid : alookup sid e.student_mastery with
        | none =>
          rw [hsid] at hq
          simp at hq
        | some tl =>
          rw [hsid] at hq
          refine ⟨(sid, tl), alookup_mem hsid, ?_⟩
          rw [List.mem_bind]
          exact ⟨q, hq, hcq⟩
      · simp at hq
        rw [hq] at hcq
        simp at hcq
    · exact ⟨p, hp, hcards⟩

/-- Every card present after replace_card is the replacement or was present
before. -/
theorem engine_cards_replace {e : SpacedRepetitionEngine} {sid cid : String}
    {c' c : ReviewCard}
    (hc : c ∈ engine_cards (replace_card e sid cid c')) :
    c = c' ∨ c ∈ engine_cards e := by
  unfold replace_card at hc
  unfold engine_cards at hc ⊢
  rw [List.mem_bind] at hc
  obtain ⟨p, hp, hcards⟩ := hc
  rcases mem_amodify hp with hp | ⟨q, hq, hpq⟩
  · exact Or.inr (List.mem_bind.mpr ⟨p, hp, hcards⟩)
  · subst hpq
    rw [List.mem_bind] at hcards
    obtain ⟨q', hq', hcq⟩ := hcards
    rcases replace_card_topics_cards q' hq' c hcq with h | ⟨q'', hq'', hcq''⟩
    · exact Or.inl h
    · refine Or.inr (List.mem_bind.mpr ⟨q, hq, ?_⟩)
      rw [List.mem_bind]
      exact ⟨q'', hq'', hcq''⟩

/-- Every card present after the per-topic mastery update was present
before, because the update keeps the card list. -/
theorem engine_cards_mastery_update {L : List (String ×
    List (String × StudentMastery))} {sid t : String}
    {f : StudentMastery → StudentMastery} (hf : ∀ m, (f m).cards = m.cards)
    {c : ReviewCard}
    (hc : c ∈ engine_cards ⟨amodify sid (amodify t f) L⟩) :
    c ∈ engine_cards ⟨L⟩ := by
  unfold engine_cards at hc ⊢
  rw [List.mem_bind] at hc ⊢
  obtain ⟨p, hp, hcards⟩ := hc
  rcases mem_amodify hp with hp | ⟨q, hq, hpq⟩
  · exact ⟨p, hp, hcards⟩
  · subst hpq
    rw [List.mem_bind] at hcards
    obtain ⟨q', hq', hcq⟩ := hcards
    rcases mem_amodify hq' with hq' | ⟨q'', hq'', hqq⟩
    · refine ⟨q, hq, ?_⟩
      rw [List.mem_bind]
      exact ⟨q', hq', hcq⟩
    · subst hqq
      rw [hf] at hcq
      refine ⟨q, hq, ?_⟩
      rw [List.mem_bind]
      exact ⟨q'', hq'', hcq⟩

/-- One review step preserves the ease factor bounds of all cards. -/
theorem review_step_ease (e : SpacedRepetitionEngine) (ev : ReviewEvent)
    (he : ease_in_range e) : ease_in_range (review_step e ev) := by
  unfold review_step
  cases hf : find_card e ev.student_id ev.card_id with
  | none =>
    have herr : record_review e ev.student_id ev.card_id ev.result
        ev.response_time ev.now =
        .error ("Card " ++ ev.card_id ++ " not found for student " ++
          ev.student_id) := by
      simp [record_review, hf]
    rw [herr]
    exact he
  | some c0 =>
    rw [record_review_ok e ev.student_id ev.card_id ev.result ev.response_time
      ev.now c0 hf]
    intro c hc
    have hc2 := engine_cards_mastery_update
      (mastery_after_review_cards ev.result ev.now) hc
    rcases engine_cards_replace hc2 with hcc | hcc
    · subst hcc
      obtain ⟨h1, h2⟩ := he c0 (find_card_mem hf)
      exact sm2_ease_bounds c0 ev.result ev.response_time ev.now h1 h2
    · exact he c (engine_cards_goc hcc)

/-- Claim C3: for every engine state whose card ease factors all lie in
the interval from 1.3 to 2.5 (the default is 2.5), after any sequence of
recorded outcomes of any qualities every card ease factor remains within
that interval. -/
theorem ease_factor_always_bounded (e : SpacedRepetitionEngine)
    (evs : List ReviewEvent) (he : ease_in_range e) :
    ease_in_range (run_reviews e evs) := by
  induction evs generalizing e with
  | nil => exact he
  | cons ev evs ih => exact ih _ (review_step_ease e ev he)

/-- Witness for C3 at a concrete input: the singleton engine is in range and
stays in range after an easy review followed by a forgot review. -/
theorem ease_factor_always_bounded_witness :
    ease_in_range ex_engine ∧
    ease_in_range (run_reviews ex_engine
      [⟨"s", "c1", .easy, 10, 0⟩, ⟨"s", "c1", .forgot, 5, 100⟩]) := by
  have h : ease_in_range ex_engine := by
    intro c hc
    have hcards : engine_cards ex_engine = [ex_card] := rfl
    rw [hcards] at hc
    simp only [List.mem_singleton] at hc
    subst hc
    constructor <;> norm_num [ex_card]
  exact ⟨h, ease_factor_always_bounded ex_engine _ h⟩

/-- The mastery update formula, for a record with at least one attempt whose
last practice time is now. -/
theorem update_mastery_score_spec (m1 : StudentMastery) (now : ℚ)
    (ha : m1.attempts ≠ 0) (hl : m1.last_practiced = some now) :
    (update_mastery_score m1 now).mastery_score =
      max 0 (min 1 ((m1.correct : ℚ) / (m1.attempts : ℚ) +
        min (2/10) ((m1.streak : ℚ) * (2/100)) -
        min (3/10) ((⌊(now - now) / secondsPerDay⌋ : ℚ) * (1/100)))) ∧
    (update_mastery_score m1 now).confidence =
      min (9/10) (1/10 + (m1.attempts : ℚ) * (5/100)) := by
  unfold update_mastery_score
  rw [if_neg ha, hl]
  exact ⟨rfl, rfl⟩

/-- The mastery update lands in the unit interval whenever it fires. -/
theorem update_mastery_score_bounds (m1 : StudentMastery) (now : ℚ)
    (ha : m1.attempts ≠ 0) :
    0 ≤ (update_mastery_score m1 now).mastery_score ∧
    (update_mastery_score m1 now).mastery_score ≤ 1 ∧
    0 ≤ (update_mastery_score m1 now).confidence ∧
    (update_mastery_score m1 now).confidence ≤ 1 := by
  unfold update_mastery_score
  rw [if_neg ha]
  refine ⟨le_max_left 0 _, max_le (by norm_num) (min_le_left 1 _), ?_, ?_⟩
  · apply le_min
    · norm_num
    · have h5 : (0:ℚ) ≤ (m1.attempts : ℚ) * (5/100) := by positivity
      linarith
  · exact le_trans (min_le_left _ _) (by norm_num)

/-- The full behavior of the per-topic mastery update of record_review: it
stamps the practice time, applies the clamp formula (whose recency term is
evaluated at the just-stamped practice time, hence zero days), sets the
confidence from the attempt count, and lands in the unit interval. -/
theorem mastery_after_review_full (res : ReviewResult) (now : ℚ)
    (m : StudentMastery) :
    (mastery_after_review res now m).last_practiced = some now ∧
    (mastery_after_review res now m).mastery_score =
      max 0 (min 1 (((mastery_after_review res now m).correct : ℚ) /
        ((mastery_after_review res now m).attempts : ℚ) +
        min (2/10) (((mastery_after_review res now m).streak : ℚ) * (2/100)) -
        min (3/10) ((⌊(now - now) / secondsPerDay⌋ : ℚ) * (1/100)))) ∧
    (mastery_after_review res now m).confidence =
      min (9/10) (1/10 + ((mastery_after_review res now m).attempts : ℚ) * (5/100)) ∧
    0 ≤ (mastery_after_review res now m).mastery_score ∧
    (mastery_after_review res now m).mastery_score ≤ 1 ∧
    0 ≤ (mastery_after_review res now m).confidence ∧
    (mastery_after_review res now m).confidence ≤ 1 := by
  have key : ∀ m1 : StudentMastery, m1.attempts ≠ 0 →
      m1.last_practiced = some now →
      (update_mastery_score m1 now).last_practiced = some now ∧
      (update_mastery_score m1 now).mastery_score =
        max 0 (min 1 (((update_mastery_score m1 now).correct : ℚ) /
          ((update_mastery_score m1 now).attempts : ℚ) +
          min (2/10) (((update_mastery_score m1 now).streak : ℚ) * (2/100)) -
          min (3/10) ((⌊(now - now) / secondsPerDay⌋ : ℚ) * (1/100)))) ∧
      (update_mastery_score m1 now).confidence =
        min (9/10) (1/10 + ((update_mastery_score m1 now).attempts : ℚ) * (5/100)) ∧
      0 ≤ (update_mastery_score m1 now).mastery_score ∧
      (update_mastery_score m1 now).mastery_score ≤ 1 ∧
      0 ≤ (update_mastery_score m1 now).confidence ∧
      (update_mastery_score m1 now).confidence ≤ 1 := by
    intro m1 ha hl
    obtain ⟨hs, hcf⟩ := update_mastery_score_spec m1 now ha hl
    obtain ⟨f1, f2, f3, f4⟩ := update_mastery_score_frame m1 now
    obtain ⟨b1, b2, b3, b4⟩ := update_mastery_score_bounds m1 now ha
    rw [f1, f2, f3, f4]
    exact ⟨hl, hs, hcf, b1, b2, b3, b4⟩
  unfold mastery_after_review
  cases res
  · exact key _ (Nat.succ_ne_zero _) rfl
  · exact key _ (Nat.succ_ne_zero _) rfl
  · exact key _ (Nat.succ_ne_zero _) rfl
  · exact key _ (Nat.succ_ne_zero _) rfl

/-- Every mastery record present after get_or_create_mastery was present
before or is the freshly created default. -/
theorem engine_masteries_goc {e : SpacedRepetitionEngine} {sid t : String}
    {m' : StudentMastery}
    (hm : m' ∈ engine_masteries (get_or_create_mastery e sid t).2) :
    m' ∈ engine_masteries e ∨ m' = { student_id := sid, topic := t } := by
  unfold get_or_create_mastery at hm
  dsimp only [] at hm
  cases halt : alookup t ((alookup sid e.student_mastery).getD []) with
  | some mm =>
    rw [halt] at hm
    unfold engine_masteries at hm ⊢
    rw [List.mem_bind] at hm
    obtain ⟨p, hp, hmm⟩ := hm
    rcases mem_aset hp with hp | hp
    · subst hp
      cases hsid : alookup sid e.student_mastery with
      | none =>
        rw [hsid] at hmm
        simp at hmm
      | some tl =>
        rw [hsid] at hmm
        exact Or.inl (List.mem_bind.mpr ⟨(sid, tl), alookup_mem hsid, hmm⟩)
    · exact Or.inl (List.mem_bind.mpr ⟨p, hp, hmm⟩)
  | none =>
    rw [halt] at hm
    unfold engine_masteries at hm ⊢
    rw [List.mem_bind] at hm
    obtain ⟨p, hp, hmm⟩ := hm
    rcases mem_aset hp with hp | hp
    · subst hp
      rw [List.map_append, List.mem_append] at hmm
      rcases hmm with hmm | hmm
      · cases hsid : alookup sid e.student_mastery with
        | none =>
          rw [hsid] at hmm
          simp at hmm
        | some tl =>
          rw [hsid] at hmm
          exact Or.inl (List.mem_bind.mpr ⟨(sid, tl), alookup_mem hsid, hmm⟩)
      · simp only [List.map_cons, List.map_nil, List.mem_singleton] at hmm
        exact Or.inr hmm
    · exact Or.inl (List.mem_bind.mpr ⟨p, hp, hmm⟩)

/-- replace_card_topics keeps every mastery score and confidence. -/
theorem replace_card_topics_scores {tl : List (String × StudentMastery)}
    {cid : String} {c' : ReviewCard} :
    ∀ p ∈ replace_card_topics tl cid c', ∃ q ∈ tl,
      p.2.mastery_score = q.2.mastery_score ∧ p.2.confidence = q.2.confidence := by
  induction tl with
  | nil => simp [replace_card_topics]
  | cons q0 rest ih =>
    obtain ⟨t0, m0⟩ := q0
    intro p hp
    unfold replace_card_topics at hp
    by_cases hfound : (find_card_in m0.cards cid).isSome
    · rw [if_pos hfound] at hp
      rcases List.mem_cons.mp hp with hp | hp
      · subst hp
        exact ⟨(t0, m0), List.mem_cons_self _ _, rfl, rfl⟩
      · exact ⟨p, List.mem_cons_of_mem _ hp, rfl, rfl⟩
    · rw [if_neg hfound] at hp
      rcases List.mem_cons.mp hp with hp | hp
      · subst hp
        exact ⟨(t0, m0), List.mem_cons_self _ _, rfl, rfl⟩
      · obtain ⟨q, hq, h1, h2⟩ := ih p hp
        exact ⟨q, List.mem_cons_of_mem _ hq, h1, h2⟩

/-- Every mastery record present after replace_card keeps the score and the
confidence of a record present before. -/
theorem engine_masteries_replace {e : SpacedRepetitionEngine}
    {sid cid : String} {c' : ReviewCard} {m' : StudentMastery}
    (hm : m' ∈ engine_masteries (replace_card e sid cid c')) :
    ∃ m ∈ engine_masteries e, m'.mastery_score = m.mastery_score ∧
      m'.confidence = m.confidence := by
  unfold replace_card at hm
  unfold engine_masteries at hm ⊢
  rw [List.mem_bind] at hm
  obtain ⟨p, hp, hmm⟩ := hm
  rcases mem_amodify hp with hp | ⟨q, hq, hpq⟩
  · exact ⟨m', List.mem_bind.mpr ⟨p, hp, hmm⟩, rfl, rfl⟩
  · subst hpq
    rw [List.mem_map] at hmm
    obtain ⟨q', hq', hqm⟩ := hmm
    obtain ⟨q'', hq'', h1, h2⟩ := replace_card_topics_scores q' hq'
    refine ⟨q''.2, List.mem_bind.mpr ⟨q, hq, List.mem_map.mpr ⟨q'', hq'', rfl⟩⟩,
      ?_, ?_⟩
    · rw [← hqm]
      exact h1
    · rw [← hqm]
      exact h2

/-- Every mastery record after the final per-topic update was present before
or is the image of some record under the update. -/
theorem engine_masteries_amodify
    {L : List (String × List (String × StudentMastery))} {sid t : String}
    {f : StudentMastery → StudentMastery} {m' : StudentMastery}
    (hm : m' ∈ engine_masteries ⟨amodify sid (amodify t f) L⟩) :
    m' ∈ engine_masteries ⟨L⟩ ∨ ∃ m0, m' = f m0 := by
  unfold engine_masteries at hm ⊢
  rw [List.mem_bind] at hm
  obtain ⟨p, hp, hmm⟩ := hm
  rcases mem_amodify hp with hp | ⟨q, hq, hpq⟩
  · exact Or.inl (List.mem_bind.mpr ⟨p, hp, hmm⟩)
  · subst hpq
    rw [List.mem_map] at hmm
    obtain ⟨q', hq', hqm⟩ := hmm
    rcases mem_amodify hq' with hq' | ⟨q'', hq'', hqq⟩
    · exact Or.inl (List.mem_bind.mpr ⟨q, hq, List.mem_map.mpr ⟨q', hq', hqm⟩⟩)
    · subst hqq
      exact Or.inr ⟨q''.2, hqm.symm⟩

/-- One review step preserves the unit-interval bounds of all mastery
scores and confidences. -/
theorem review_step_mastery (e : SpacedRepetitionEngine) (ev : ReviewEvent)
    (hm : mastery_in_range e) : mastery_in_range (review_step e ev) := by
  unfold review_step
  cases hf : find_card e ev.student_id ev.card_id with
  | none =>
    have herr : record_review e ev.student_id ev.card_id ev.result
        ev.response_time ev.now =
        .error ("Card " ++ ev.card_id ++ " not found for student " ++
          ev.student_id) := by
      simp [record_review, hf]
    rw [herr]
    exact hm
  | some c0 =>
    rw [record_review_ok e ev.student_id ev.card_id ev.result ev.response_time
      ev.now c0 hf]
    intro m' hm'
    rcases engine_masteries_amodify hm' with hm' | ⟨m0, hm0⟩
    · obtain ⟨m, hmem, h1, h2⟩ := engine_masteries_replace hm'
      rcases engine_masteries_goc hmem with hmem | hdef
      · rw [h1, h2]
        exact hm m hmem
      · rw [h1, h2, hdef]
        exact ⟨by norm_num, by norm_num, by norm_num, by norm_num⟩
    · subst hm0
      obtain ⟨-, -, -, b1, b2, b3, b4⟩ :=
        mastery_after_review_full ev.result ev.now m0
      exact ⟨b1, b2, b3, b4⟩

/-- Claim C4: after every graded outcome the owning topic mastery record has
masteryScore equal to clamp(successRate + streakBonus − recencyPenalty, 0, 1)
with successRate = correct divided by attempts, streakBonus = min(0.2,
streak × 0.02) and recencyPenalty = min(0.3, daysSinceLastPractice × 0.01)
evaluated at the just-stamped lastPracticedAt (so its day count is zero), and
confidence equal to min(0.9, 0.1 + attempts × 0.05); and both mastery score
and confidence stay within the unit interval after any sequence of updates. -/
theorem mastery_formula_and_bounds :
    (∀ (e : SpacedRepetitionEngine) (sid cid : String) (res : ReviewResult)
      (rt now : ℚ) (c0 c' : ReviewCard) (e' : SpacedRepetitionEngine),
      find_card e sid cid = some c0 →
      record_review e sid cid res rt now = .ok (c', e') →
      ∃ m', mastery_at e' sid c0.topic = some m' ∧
        m'.last_practiced = some now ∧
        m'.mastery_score = max 0 (min 1 ((m'.correct : ℚ) / (m'.attempts : ℚ) +
          min (2/10) ((m'.streak : ℚ) * (2/100)) -
          min (3/10) ((⌊(now - now) / secondsPerDay⌋ : ℚ) * (1/100)))) ∧
        m'.confidence = min (9/10) (1/10 + (m'.attempts : ℚ) * (5/100)) ∧
        0 ≤ m'.mastery_score ∧ m'.mastery_score ≤ 1 ∧
        0 ≤ m'.confidence ∧ m'.confidence ≤ 1) ∧
    (∀ (e : SpacedRepetitionEngine) (evs : List ReviewEvent),
      mastery_in_range e → mastery_in_range (run_reviews e evs)) := by
  constructor
  · intro e sid cid res rt now c0 c' e' hfind hok
    obtain ⟨m, hmlook⟩ :=
      record_review_mastery_lookup e sid cid res rt now c0 c' e' hfind hok
    obtain ⟨g1, g2, g3, g4, g5, g6, g7⟩ := mastery_after_review_full res now m
    exact ⟨mastery_after_review res now m, hmlook, g1, g2, g3, g4, g5, g6, g7⟩
  · intro e evs he
    induction evs generalizing e with
    | nil => exact he
    | cons ev evs ih => exact ih _ (review_step_mastery e ev he)

/-- Witness for C4 at a concrete input: a good review of the stored card
lands the topic record on the formula, and a two-event run keeps the
singleton engine in range. -/
theorem mastery_formula_and_bounds_witness :
    (∃ m', mastery_at
        (⟨amodify "s" (amodify ex_card.topic (mastery_after_review .good 0))
          (replace_card (get_or_create_mastery ex_engine "s" ex_card.topic).2
            "s" "c1" (sm2_card_update ex_card .good 10 0)).student_mastery⟩ :
          SpacedRepetitionEngine) "s" ex_card.topic = some m' ∧
      m'.last_practiced = some 0 ∧
      m'.mastery_score = max 0 (min 1 ((m'.correct : ℚ) / (m'.attempts : ℚ) +
        min (2/10) ((m'.streak : ℚ) * (2/100)) -
        min (3/10) ((⌊((0:ℚ) - 0) / secondsPerDay⌋ : ℚ) * (1/100)))) ∧
      m'.confidence = min (9/10) (1/10 + (m'.attempts : ℚ) * (5/100)) ∧
      0 ≤ m'.mastery_score ∧ m'.mastery_score ≤ 1 ∧
      0 ≤ m'.confidence ∧ m'.confidence ≤ 1) ∧
    mastery_in_range (run_reviews ex_engine [⟨"s", "c1", .good, 10, 0⟩]) := by
  have hin : mastery_in_range ex_engine := by
    intro m hmem
    have hms : engine_masteries ex_engine =
        [{ student_id := "s", topic := "t",
           cards := [ex_card] }] := rfl
    rw [hms] at hmem
    simp only [List.mem_singleton] at hmem
    subst hmem
    refine ⟨by norm_num, by norm_num, by norm_num, by norm_num⟩
  constructor
  · exact mastery_formula_and_bounds.1 ex_engine "s" "c1" .good 10 0 ex_card _ _
      rfl (record_review_ok ex_engine "s" "c1" .good 10 0 ex_card rfl)
  · exact mastery_formula_and_bounds.2 ex_engine [⟨"s", "c1", .good, 10, 0⟩] hin

/-! ## Behavioral tracker invariants -/

/-- Every active session has a duplicate-free raised-signal list. -/
def signals_nodup (tr : BehavioralTracker) : Prop :=
  ∀ p ∈ tr.active_sessions, p.2.signals_detected.Nodup

/-- The session found by lookup has a duplicate-free signal list. -/
theorem signals_nodup_lookup {tr : BehavioralTracker} {sid : String}
    {s : SessionActivity} (h : signals_nodup tr)
    (hs : alookup sid tr.active_sessions = some s) :
    s.signals_detected.Nodup :=
  h (sid, s) (alookup_mem hs)

/-- Writing a session with a duplicate-free signal list keeps the invariant. -/
theorem signals_nodup_aset {tr : BehavioralTracker} {sid : String}
    {s' : SessionActivity} (h : signals_nodup tr)
    (hs : s'.signals_detected.Nodup) :
    signals_nodup { tr with active_sessions := aset sid s' tr.active_sessions } := by
  intro p hp
  rcases mem_aset hp with hp | hp
  · subst hp
    exact hs
  · exact h p hp

/-- raise_signal_if preserves duplicate-freeness: it only ever appends a
signal that is not yet present. -/
theorem raise_signal_if_nodup {tr : BehavioralTracker} {sid : String}
    {cond : Bool} {sig : StruggleSignal} {now : ℚ} (h : signals_nodup tr) :
    signals_nodup (raise_signal_if tr sid cond sig now) := by
  unfold raise_signal_if
  split
  · exact h
  next s hs =>
    split_ifs with hcond
    · intro p hp
      have hp' : p ∈ aset sid
          ({ s with signals_detected := s.signals_detected ++ [sig] })
          tr.active_sessions := hp
      rcases mem_aset hp' with hpp | hpp
      · subst hpp
        show (s.signals_detected ++ [sig]).Nodup
        refine (signals_nodup_lookup h hs).append (List.nodup_singleton _) ?_
        intro a ha hb
        rw [List.mem_singleton] at hb
        subst hb
        exact hcond.2 ha
      · exact h p hpp
    · exact h

/-- One tracker event preserves the signal duplicate-freeness invariant. -/
theorem tracker_step_nodup (tr : BehavioralTracker) (ev : TrackerEvent)
    (h : signals_nodup tr) : signals_nodup (tracker_step tr ev) := by
  cases ev with
  | startSession sid st t now =>
    show signals_nodup (start_session tr sid st t now)
    unfold start_session
    dsimp only []
    split_ifs with hprof
    · exact signals_nodup_aset h List.nodup_nil
    · intro p hp
      exact signals_nodup_aset h List.nodup_nil p hp
  | hintRequest sid now =>
    show signals_nodup (log_hint_request tr sid now)
    unfold log_hint_request
    split
    · exact h
    next s hs =>
      have hn : s.signals_detected.Nodup := signals_nodup_lookup h hs
      exact raise_signal_if_nodup (signals_nodup_aset h hn)
  | question sid text now =>
    show signals_nodup (log_question tr sid text now)
    unfold log_question
    split
    · exact h
    next s hs =>
      have hn : s.signals_detected.Nodup := signals_nodup_lookup h hs
      exact raise_signal_if_nodup (raise_signal_if_nodup
        (signals_nodup_aset h hn))
  | errorEvent sid kind now =>
    show signals_nodup (log_error tr sid kind now)
    unfold log_error
    split
    · exact h
    next s hs =>
      have hn : s.signals_detected.Nodup := signals_nodup_lookup h hs
      exact raise_signal_if_nodup (signals_nodup_aset h hn)
  | copyPaste sid now =>
    show signals_nodup (log_copy_paste tr sid now)
    unfold log_copy_paste
    split
    · exact h
    next s hs =>
      have hn : s.signals_detected.Nodup := signals_nodup_lookup h hs
      exact raise_signal_if_nodup (signals_nodup_aset h hn)
  | timeOnTask sid now =>
    show signals_nodup (update_time_on_task tr sid now)
    unfold update_time_on_task
    split
    · exact h
    next s hs =>
      have hn : s.signals_detected.Nodup := signals_nodup_lookup h hs
      exact raise_signal_if_nodup (signals_nodup_aset h hn)
  | offerCheck sid =>
    show signals_nodup (should_offer_intervention tr sid).2
    unfold should_offer_intervention
    split
    · exact h
    next s hs =>
      split_ifs with h1 h2
      · exact h
      · exact h
      · have hn : s.signals_detected.Nodup := signals_nodup_lookup h hs
        exact signals_nodup_aset h hn
  | interventionResponse sid acc =>
    show signals_nodup (record_intervention_response tr sid acc)
    unfold record_intervention_response
    split
    · exact h
    next s hs =>
      have hn : s.signals_detected.Nodup := signals_nodup_lookup h hs
      exact signals_nodup_aset h hn
  | sessionEnd sid =>
    show signals_nodup (end_session tr sid)
    unfold end_session
    split
    · exact h
    next s hs =>
      intro p hp
      exact h p ((adel_sublist sid tr.active_sessions).subset hp)

/-- Claim C7: within one session, each struggle signal type appears at most
once in the raised-signal list after any sequence of logged events, no
matter how many times its trigger condition is met: the duplicate-freeness
of every active session signal list is preserved by every event sequence. -/
theorem signals_raised_at_most_once (tr : BehavioralTracker)
    (evs : List TrackerEvent) (h : signals_nodup tr) :
    signals_nodup (tracker_run tr evs) := by
  induction evs generalizing tr with
  | nil => exact h
  | cons ev evs ih => exact ih _ (tracker_step_nodup tr ev h)

/-- Witness for C7 at a concrete input: four hint requests in one session
starting from the empty tracker, where the trigger condition fires at the
third and again at the fourth request. -/
theorem signals_raised_at_most_once_witness :
    signals_nodup ({} : BehavioralTracker) ∧
    signals_nodup (tracker_run {}
      [.startSession "k" "stu" "top" 0, .hintRequest "k" 1,
       .hintRequest "k" 2, .hintRequest "k" 3, .hintRequest "k" 4]) := by
  have h0 : signals_nodup ({} : BehavioralTracker) := by
    intro p hp
    exact absurd hp (List.not_mem_nil p)
  exact ⟨h0, signals_raised_at_most_once {} _ h0⟩

/-- The offered flag of the session with the given id is locked: session
keys are unique and the session, if present, has already been offered an
intervention. -/
def offered_locked (sid : String) (tr : BehavioralTracker) : Prop :=
  (tr.active_sessions.map Prod.fst).Nodup ∧
  ∀ s, alookup sid tr.active_sessions = some s → s.intervention_offered = true

/-- Writing any session under another key, or a session that keeps the
offered flag under the same key, preserves the lock. -/
theorem offered_locked_aset {sid sid' : String} {tr : BehavioralTracker}
    {s' : SessionActivity} (h : offered_locked sid tr)
    (hoff : sid' = sid → s'.intervention_offered = true) :
    offered_locked sid
      { tr with active_sessions := aset sid' s' tr.active_sessions } := by
  refine ⟨keys_aset_nodup _ _ h.1, ?_⟩
  intro sx hx
  have hx' : alookup sid (aset sid' s' tr.active_sessions) = some sx := hx
  rw [alookup_aset] at hx'
  by_cases hss : sid' = sid
  · rw [if_pos hss] at hx'
    injection hx' with hx'
    subst hx'
    exact hoff hss
  · rw [if_neg hss] at hx'
    exact h.2 sx hx'

/-- raise_signal_if preserves the offered lock: it never touches the flag. -/
theorem offered_locked_raise {sid sid' : String} {tr : BehavioralTracker}
    {cond : Bool} {sig : StruggleSignal} {now : ℚ} (h : offered_locked sid tr) :
    offered_locked sid (raise_signal_if tr sid' cond sig now) := by
  unfold raise_signal_if
  split
  · exact h
  next s hs =>
    split_ifs with hcond
    · refine ⟨?_, ?_⟩
      · show ((aset sid' _ tr.active_sessions).map Prod.fst).Nodup
        exact keys_aset_nodup _ _ h.1
      · intro sx hx
        have hx' : alookup sid (aset sid'
            ({ s with signals_detected := s.signals_detected ++ [sig] })
            tr.active_sessions) = some sx := hx
        rw [alookup_aset] at hx'
        by_cases hss : sid' = sid
        · rw [if_pos hss] at hx'
          injection hx' with hx'
          subst hx'
          show s.intervention_offered = true
          subst hss
          exact h.2 s hs
        · rw [if_neg hss] at hx'
          exact h.2 sx hx'
    · exact h

/-- One tracker event that does not restart the session preserves the
offered lock. -/
theorem tracker_step_offered_locked (tr : BehavioralTracker) (ev : TrackerEvent)
    (sid : String) (hev : ev.startsFor sid = false)
    (h : offered_locked sid tr) : offered_locked sid (tracker_step tr ev) := by
  cases ev with
  | startSession sid'' st t now =>
    have hne : sid'' ≠ sid := by
      simpa [TrackerEvent.startsFor] using hev
    show offered_locked sid (start_session tr sid'' st t now)
    unfold start_session
    dsimp only []
    split_ifs with hprof
    · exact offered_locked_aset h (fun hh => absurd hh hne)
    · exact offered_locked_aset h (fun hh => absurd hh hne)
  | hintRequest sid' now =>
    show offered_locked sid (log_hint_request tr sid' now)
    unfold log_hint_request
    split
    · exact h
    next s hs =>
      apply offered_locked_raise
      apply offered_locked_aset h
      intro hss
      show s.intervention_offered = true
      subst hss
      exact h.2 s hs
  | question sid' text now =>
    show offered_locked sid (log_question tr sid' text now)
    unfold log_question
    split
    · exact h
    next s hs =>
      apply offered_locked_raise
      apply offered_locked_raise
      apply offered_locked_aset h
      intro hss
      show s.intervention_offered = true
      subst hss
      exact h.2 s hs
  | errorEvent sid' kind now =>
    show offered_locked sid (log_error tr sid' kind now)
    unfold log_error
    split
    · exact h
    next s hs =>
      apply offered_locked_raise
      apply offered_locked_aset h
      intro hss
      show s.intervention_offered = true
      subst hss
      exact h.2 s hs
  | copyPaste sid' now =>
    show offered_locked sid (log_copy_paste tr sid' now)
    unfold log_copy_paste
    split
    · exact h
    next s hs =>
      apply offered_locked_raise
      apply offered_locked_aset h
      intro hss
      show s.intervention_offered = true
      subst hss
      exact h.2 s hs
  | timeOnTask sid' now =>
    show offered_locked sid (update_time_on_task tr sid' now)
    unfold update_time_on_task
    split
    · exact h
    next s hs =>
      apply offered_locked_raise
      apply offered_locked_aset h
      intro hss
      show s.intervention_offered = true
      subst hss
      exact h.2 s hs
  | offerCheck sid' =>
    show offered_locked sid (should_offer_intervention tr sid').2
    unfold should_offer_intervention
    split
    · exact h
    next s hs =>
      split_ifs with h1 h2
      · exact h
      · exact h
      · exact offered_locked_aset h (fun _ => rfl)
  | interventionResponse sid' acc =>
    show offered_locked sid (record_intervention_response tr sid' acc)
    unfold record_intervention_response
    split
    · exact h
    next s hs =>
      apply offered_locked_aset h
      intro hss
      show s.intervention_offered = true
      subst hss
      exact h.2 s hs
  | sessionEnd sid' =>
    show offered_locked sid (end_session tr sid')
    unfold end_session
    split
    · exact h
    next s hs =>
      dsimp only []
      refine ⟨?_, ?_⟩
      · show ((adel sid' tr.active_sessions).map Prod.fst).Nodup
        exact ((adel_sublist sid' tr.active_sessions).map Prod.fst).nodup h.1
      · intro sx hx
        have hx' : alookup sid (adel sid' tr.active_sessions) = some sx := hx
        by_cases hss : sid' = sid
        · subst hss
          rw [alookup_adel_self h.1] at hx'
          exact absurd hx' (by simp)
        · rw [alookup_adel_ne _ _ _ hss] at hx'
          exact h.2 sx hx'

/-- A locked offered flag makes should_offer_intervention decline. -/
theorem should_offer_no_of_locked {tr : BehavioralTracker} {sid : String}
    (h : offered_locked sid tr) :
    (should_offer_intervention tr sid).1 = .no_offer := by
  unfold should_offer_intervention
  split
  · rfl
  next s hs =>
    split_ifs with h1 h2
    · rfl
    · rfl
    · exact absurd (h.2 s hs) h1

/-- Claim C8: shouldOfferIntervention returns no offer when there is no
active session with the given id, or an intervention was already offered,
or fewer than 2 distinct signals have been raised; otherwise it returns an
offer and marks the session as offered, so the first call made once the
second distinct signal has been raised returns an offer and every
subsequent call in the same session (that is, under any further events that
do not restart the session id, with unique session keys) returns no offer. -/
theorem should_offer_intervention_policy :
    (∀ (tr : BehavioralTracker) (sid : String),
      alookup sid tr.active_sessions = none →
      (should_offer_intervention tr sid).1 = .no_offer ∧
      (should_offer_intervention tr sid).2 = tr) ∧
    (∀ (tr : BehavioralTracker) (sid : String) (s : SessionActivity),
      alookup sid tr.active_sessions = some s →
      (s.intervention_offered = true →
        (should_offer_intervention tr sid).1 = .no_offer ∧
        (should_offer_intervention tr sid).2 = tr) ∧
      (s.signals_detected.length < 2 →
        (should_offer_intervention tr sid).1 = .no_offer ∧
        (should_offer_intervention tr sid).2 = tr) ∧
      (s.intervention_offered = false → 2 ≤ s.signals_detected.length →
        (should_offer_intervention tr sid).1.isOffer = true ∧
        alookup sid (should_offer_intervention tr sid).2.active_sessions =
          some { s with intervention_offered := true })) ∧
    (∀ (tr : BehavioralTracker) (sid : String) (evs : List TrackerEvent),
      offered_locked sid tr → (∀ ev ∈ evs, ev.startsFor sid = false) →
      (should_offer_intervention (tracker_run tr evs) sid).1 = .no_offer) := by
  refine ⟨?_, ?_, ?_⟩
  · intro tr sid hnone
    unfold should_offer_intervention
    rw [hnone]
    exact ⟨rfl, rfl⟩
  · intro tr sid s hs
    refine ⟨?_, ?_, ?_⟩
    · intro hoff
      unfold should_offer_intervention
      rw [hs]
      dsimp only []
      rw [if_pos hoff]
      exact ⟨rfl, rfl⟩
    · intro hlen
      unfold should_offer_intervention
      rw [hs]
      dsimp only []
      split_ifs with h1
      · exact ⟨rfl, rfl⟩
      · exact ⟨rfl, rfl⟩
    · intro hoff hlen
      unfold should_offer_intervention
      rw [hs]
      dsimp only []
      rw [if_neg (by simp [hoff]), if_neg (by omega)]
      refine ⟨rfl, ?_⟩
      show alookup sid (aset sid _ tr.active_sessions) = _
      rw [alookup_aset, if_pos rfl]
  · intro tr sid evs hlock hev
    have hlock' : offered_locked sid (tracker_run tr evs) := by
      induction evs generalizing tr with
      | nil => exact hlock
      | cons ev evs ih =>
        exact ih _ (tracker_step_offered_locked tr ev sid
          (hev ev (List.mem_cons_self _ _)) hlock)
          (fun e he => hev e (List.mem_cons_of_mem _ he))
    exact should_offer_no_of_locked hlock'

/-- A concrete tracker whose one session has raised exactly two signals:
three hint requests and a twice-repeated error kind. -/
def offer_tracker : BehavioralTracker :=
  tracker_run {} [.startSession "k" "stu" "top" 0, .hintRequest "k" 1,
    .hintRequest "k" 2, .hintRequest "k" 3, .errorEvent "k" "E" 4,
    .errorEvent "k" "E" 5]

/-- The session stored in offer_tracker. -/
def offer_session : SessionActivity :=
  { session_id := "k", student_id := "stu", topic := "top", start_time := 0,
    hint_requests := 3, error_repeats := [("E", 2)],
    signals_detected := [.multiple_hints, .repeated_errors] }

/-- Witness for C8 at a concrete input: once the second distinct signal has
been raised, the first call offers and marks the session, and the next call
declines. -/
theorem should_offer_intervention_policy_witness :
    alookup "k" offer_tracker.active_sessions = some offer_session ∧
    offer_session.intervention_offered = false ∧
    2 ≤ offer_session.signals_detected.length ∧
    ((should_offer_intervention offer_tracker "k").1.isOffer = true ∧
      alookup "k" (should_offer_intervention offer_tracker "k").2.active_sessions =
        some { offer_session with intervention_offered := true }) ∧
    (should_offer_intervention
      (should_offer_intervention offer_tracker "k").2 "k").1 = .no_offer := by
  have h1 : alookup "k" offer_tracker.active_sessions = some offer_session := rfl
  have h4 := (should_offer_intervention_policy.2.1 offer_tracker "k"
    offer_session h1).2.2 rfl (by decide)
  refine ⟨h1, rfl, by decide, h4, ?_⟩
  exact (should_offer_intervention_policy.2.1
    (should_offer_intervention offer_tracker "k").2 "k"
    ({ offer_session with intervention_offered := true }) h4.2).1 rfl |>.1

end OpenTA
